import Mathlib

/-!
Verification development for the `ac-client` USP Agent (TR-369).

The Rust sources under `src/usp/` are shallowly embedded below:
pure string manipulation is translated to functions on `String`
(represented through their `List Char` data), effectful collaborators
(UCI shell, `/proc` readers, HTTP, filesystem) are abstracted as an
explicit environment record `Env`, and the async message-handling
functions become pure state-passing functions.
-/

/- ── Rust string primitives, modelled on the character list ──────────────── -/

/-- `str::starts_with` on character lists: `lpre p s` iff `p` is a prefix of `s`. -/
def lpre : List Char → List Char → Bool
  | [], _ => true
  | _ :: _, [] => false
  | a :: as, b :: bs => if a = b then lpre as bs else false

/-- `str::starts_with(pat)`. -/
def sStartsWith (s pat : String) : Bool := lpre pat.data s.data

/-- `str::ends_with(pat)`. -/
def sEndsWith (s pat : String) : Bool := lpre pat.data.reverse s.data.reverse

/-- Substring containment on character lists (`str::contains`). -/
def linfix (needle : List Char) : List Char → Bool
  | [] => lpre needle []
  | c :: cs => lpre needle (c :: cs) || linfix needle cs

/-- `str::contains(pat)`. -/
def sContains (s pat : String) : Bool := linfix pat.data s.data

/-- `path.chars().filter(|&c| c == '.').count()` — number of periods. -/
def dotCount (s : String) : Nat := (s.data.filter (fun c => c = '.')).length

/-- `str::trim` (drop whitespace from both ends). -/
def sTrim (s : String) : String :=
  ⟨((s.data.dropWhile Char.isWhitespace).reverse.dropWhile Char.isWhitespace).reverse⟩

/-- `str::split(sep)` with a single character separator, on character lists. -/
def splitCharAux (sep : Char) : List Char → List Char → List (List Char)
  | [], acc => [acc.reverse]
  | c :: cs, acc =>
    if c = sep then acc.reverse :: splitCharAux sep cs [] else splitCharAux sep cs (c :: acc)

/-- `str::split(sep)` with a single character separator. -/
def sSplitChar (sep : Char) (s : String) : List String :=
  (splitCharAux sep s.data []).map (fun l => ⟨l⟩)

/-- `str::trim_matches(c)`: strip every leading and trailing occurrence of `c`. -/
def sTrimMatches (c : Char) (s : String) : String :=
  ⟨((s.data.dropWhile (fun a => a = c)).reverse.dropWhile (fun a => a = c)).reverse⟩

/-- `str::lines`: split at newlines, drop a final empty segment, strip a
trailing carriage return from each line. -/
def sLines (s : String) : List String :=
  let segs := sSplitChar '\n' s
  let segs := if segs.getLast? = some "" then segs.dropLast else segs
  segs.map (fun l => ⟨if l.data.getLast? = some '\r' then l.data.dropLast else l.data⟩)

/-- `str::trim_start_matches(pat)`: repeatedly strip the prefix `pat`.
Fueled recursion (the fuel is the length of the subject) so that the kernel
can evaluate it. -/
def trimStartAux (pat : List Char) : Nat → List Char → List Char
  | 0, s => s
  | f + 1, s =>
    if pat.isEmpty then s
    else if lpre pat s then trimStartAux pat f (s.drop pat.length)
    else s

/-- `str::trim_start_matches(pat)`. -/
def sTrimStartMatches (s pat : String) : String :=
  ⟨trimStartAux pat.data s.data.length s.data⟩

/-- `str::replace(from, to)`: replace every occurrence, fueled recursion. -/
def replaceAux (needle repl : List Char) : Nat → List Char → List Char
  | 0, s => s
  | fuel + 1, s =>
    match s with
    | [] => []
    | c :: cs =>
      if lpre needle (c :: cs) then
        repl ++ replaceAux needle repl fuel ((c :: cs).drop needle.length)
      else
        c :: replaceAux needle repl fuel cs

/-- `str::replace(from, to)` (the `from` pattern is non-empty at every call site). -/
def sReplace (s needle repl : String) : String :=
  ⟨replaceAux needle.data repl.data s.data.length s.data⟩

/-- `str::split_whitespace`: split at whitespace, dropping empty tokens. -/
def sSplitWhitespace (s : String) : List String :=
  ((splitCharAux ' ' s.data []).map (fun l => ⟨l⟩)).filter (fun t => t ≠ "")

/- ── Decimal rendering of a natural number (Rust `format!("{n}")`) ─────────── -/

/-- Fueled decimal digit expansion, most significant digit first. -/
def natReprAux : Nat → Nat → List Char
  | 0, _ => []
  | _ + 1, 0 => []
  | fuel + 1, n + 1 =>
    natReprAux fuel ((n + 1) / 10) ++ [Nat.digitChar ((n + 1) % 10)]

/-- Decimal representation of `n`, as Rust's `format!` renders an integer. -/
def natRepr (n : Nat) : String :=
  if n = 0 then "0" else ⟨natReprAux n n⟩

theorem natReprAux_fuel {f₁ f₂ n : Nat} (h₁ : n ≤ f₁) (h₂ : n ≤ f₂) :
    natReprAux f₁ n = natReprAux f₂ n := by
  induction n using Nat.strong_induction_on generalizing f₁ f₂ with
  | _ n ih =>
    match n, f₁, f₂ with
    | 0, 0, 0 => rfl
    | 0, 0, _ + 1 => rfl
    | 0, _ + 1, 0 => rfl
    | 0, _ + 1, _ + 1 => rfl
    | n + 1, g₁ + 1, g₂ + 1 =>
      have hd : (n + 1) / 10 < n + 1 := Nat.div_lt_self (Nat.succ_pos n) (by omega)
      have e := ih ((n + 1) / 10) hd (show (n + 1) / 10 ≤ g₁ by omega)
        (show (n + 1) / 10 ≤ g₂ by omega)
      simp only [natReprAux]
      rw [e]

theorem natReprAux_digits {f n : Nat} (h : n ≤ f) :
    ∀ c ∈ natReprAux f n, c ∈ ['0','1','2','3','4','5','6','7','8','9'] := by
  induction n using Nat.strong_induction_on generalizing f with
  | _ n ih =>
    match n, f with
    | 0, 0 => intro c hc; simp [natReprAux] at hc
    | 0, _ + 1 => intro c hc; simp [natReprAux] at hc
    | n + 1, g + 1 =>
      intro c hc
      simp only [natReprAux, List.mem_append, List.mem_singleton] at hc
      rcases hc with hc | hc
      · have hd : (n + 1) / 10 < n + 1 := Nat.div_lt_self (Nat.succ_pos n) (by omega)
        exact ih ((n + 1) / 10) hd (by omega) c hc
      · have hm : (n + 1) % 10 < 10 := Nat.mod_lt _ (by omega)
        subst hc
        interval_cases h : (n + 1) % 10 <;> decide

theorem natReprAux_ne_nil {f n : Nat} (hn : 0 < n) (h : n ≤ f) :
    natReprAux f n ≠ [] := by
  match n, f with
  | n + 1, g + 1 => simp [natReprAux]

/-- Parse a most-significant-first digit string back to a number. -/
def digitsVal (l : List Char) : Nat :=
  l.foldl (fun acc c => acc * 10 + (c.toNat - 48)) 0

theorem digitsVal_natReprAux {f n : Nat} (h : n ≤ f) :
    (natReprAux f n).foldl (fun acc c => acc * 10 + (c.toNat - 48)) 0 = n := by
  induction n using Nat.strong_induction_on generalizing f with
  | _ n ih =>
    match n, f with
    | 0, 0 => rfl
    | 0, _ + 1 => rfl
    | n + 1, g + 1 =>
      have hd : (n + 1) / 10 < n + 1 := Nat.div_lt_self (Nat.succ_pos n) (by omega)
      have hrec := ih ((n + 1) / 10) hd (show (n + 1) / 10 ≤ g by omega)
      have hm : (n + 1) % 10 < 10 := Nat.mod_lt _ (by omega)
      have hval : (Nat.digitChar ((n + 1) % 10)).toNat - 48 = (n + 1) % 10 := by
        have : ∀ a < 10, (Nat.digitChar a).toNat - 48 = a := by decide
        exact this _ hm
      simp only [natReprAux, List.foldl_append, List.foldl_cons, List.foldl_nil, hrec, hval]
      omega

theorem digitsVal_natReprAux' {f n : Nat} (h : n ≤ f) : digitsVal (natReprAux f n) = n :=
  digitsVal_natReprAux h

theorem natRepr_inj {n₁ n₂ : Nat} (h : natRepr n₁ = natRepr n₂) : n₁ = n₂ := by
  have hdata := congrArg String.data h
  unfold natRepr at hdata
  by_cases h₁ : n₁ = 0 <;> by_cases h₂ : n₂ = 0
  · omega
  · exfalso
    simp only [h₁, h₂, if_pos, if_neg, if_true, if_false] at hdata
    have hlist : ("0" : String).data = natReprAux n₂ n₂ := hdata
    have hv : digitsVal (("0" : String).data) = digitsVal (natReprAux n₂ n₂) :=
      congrArg digitsVal hlist
    rw [digitsVal_natReprAux' (Nat.le_refl n₂)] at hv
    have hz : digitsVal (("0" : String).data) = 0 := rfl
    omega
  · exfalso
    simp only [h₁, h₂, if_pos, if_neg, if_true, if_false] at hdata
    have hlist : natReprAux n₁ n₁ = ("0" : String).data := hdata
    have hv : digitsVal (natReprAux n₁ n₁) = digitsVal (("0" : String).data) :=
      congrArg digitsVal hlist
    rw [digitsVal_natReprAux' (Nat.le_refl n₁)] at hv
    have hz : digitsVal (("0" : String).data) = 0 := rfl
    omega
  · simp only [h₁, h₂, if_neg, if_false] at hdata
    have hlist : natReprAux n₁ n₁ = natReprAux n₂ n₂ := hdata
    have hv : digitsVal (natReprAux n₁ n₁) = digitsVal (natReprAux n₂ n₂) :=
      congrArg digitsVal hlist
    rw [digitsVal_natReprAux' (Nat.le_refl n₁), digitsVal_natReprAux' (Nat.le_refl n₂)] at hv
    exact hv

theorem natRepr_no_dot (n : Nat) : ∀ c ∈ (natRepr n).data, c ≠ '.' := by
  intro c hc
  unfold natRepr at hc
  by_cases h : n = 0
  · simp [h] at hc
    simp [hc]
  · simp [h] at hc
    have hmem := natReprAux_digits (Nat.le_refl n) c hc
    have : ∀ a ∈ ['0','1','2','3','4','5','6','7','8','9'], a ≠ '.' := by decide
    exact this c hmem

/- ── `HashMap<String, String>` modelled as a key-unique association list ──── -/

/-- The value maps used by the data model (`HashMap<String, String>`).
`HashMap` iteration order is unspecified in Rust, so any list order with the
same key-to-value content is a faithful representation. -/
abbrev Params := List (String × String)

/-- `HashMap::insert`: bind `k` to `v`, dropping any previous binding of `k`. -/
def pinsert (m : Params) (k v : String) : Params :=
  (k, v) :: m.filter (fun kv => kv.1 ≠ k)

/-- `HashMap::get`: the binding of `k`, if any. -/
def plookup (k : String) : Params → Option String
  | [] => none
  | (k', v) :: rest => if k' = k then some v else plookup k rest

/-- `HashMap::extend`: insert every pair of `new` into `acc`. -/
def pextend (acc new : Params) : Params :=
  new.foldl (fun a kv => pinsert a kv.1 kv.2) acc

/-- The keys of a parameter map. -/
def keysOf (m : Params) : List String := m.map Prod.fst

/-- A parameter map that binds no key twice. -/
def distinctKeys (m : Params) : Prop := (keysOf m).Nodup

theorem plookup_filter_ne {k k' : String} (m : Params) (h : k' ≠ k) :
    plookup k (m.filter (fun kv => kv.1 ≠ k')) = plookup k m := by
  induction m with
  | nil => rfl
  | cons hd tl ih =>
    rcases hd with ⟨k₀, v₀⟩
    by_cases h₀ : k₀ = k'
    · subst h₀
      have hne : k₀ ≠ k := fun he => h (he ▸ rfl)
      rw [List.filter_cons_of_neg (by simp)]
      simp only [plookup, if_neg hne]
      exact ih
    · rw [List.filter_cons_of_pos (by simp [h₀])]
      simp only [plookup]
      by_cases hk : k₀ = k
      · simp [hk]
      · simp only [if_neg hk]
        exact ih

theorem plookup_none_of_not_mem {k : String} {m : Params} (h : k ∉ keysOf m) :
    plookup k m = none := by
  induction m with
  | nil => rfl
  | cons hd tl ih =>
    rcases hd with ⟨k₀, v₀⟩
    simp only [keysOf, List.map_cons, List.mem_cons, not_or] at h
    simp only [plookup, if_neg (fun he : k₀ = k => h.1 he.symm)]
    exact ih (by simpa [keysOf] using h.2)

theorem plookup_pinsert (k k' v' : String) (m : Params) :
    plookup k (pinsert m k' v') = if k' = k then some v' else plookup k m := by
  unfold pinsert
  simp only [plookup]
  by_cases hke : k' = k
  · simp [hke]
  · simp only [if_neg hke]
    exact plookup_filter_ne m hke

theorem plookup_pextend (k : String) (acc new : Params) (hnew : distinctKeys new) :
    plookup k (pextend acc new) =
      match plookup k new with
      | some v => some v
      | none => plookup k acc := by
  induction new generalizing acc with
  | nil => simp [pextend, plookup]
  | cons hd tl ih =>
    rcases hd with ⟨k₀, v₀⟩
    have hn : k₀ ∉ keysOf tl ∧ (keysOf tl).Nodup := by
      simpa [distinctKeys, keysOf, List.nodup_cons] using hnew
    have step : pextend acc ((k₀, v₀) :: tl) = pextend (pinsert acc k₀ v₀) tl := by
      simp [pextend]
    rw [step, ih (pinsert acc k₀ v₀) hn.2, plookup_pinsert]
    by_cases hke : k₀ = k
    · subst hke
      have hnone : plookup k₀ tl = none := plookup_none_of_not_mem hn.1
      simp [plookup, hnone]
    · simp [plookup, if_neg hke]

theorem plookup_mem {k v : String} {m : Params} (h : plookup k m = some v) : (k, v) ∈ m := by
  induction m with
  | nil => simp [plookup] at h
  | cons hd tl ih =>
    rcases hd with ⟨k', v'⟩
    simp only [plookup] at h
    by_cases hke : k' = k
    · simp only [if_pos hke] at h
      subst hke
      simp only [Option.some.injEq] at h
      simp [h]
    · simp only [if_neg hke] at h
      exact List.mem_cons_of_mem _ (ih h)

theorem mem_plookup {k v : String} {m : Params} (hm : distinctKeys m) (h : (k, v) ∈ m) :
    plookup k m = some v := by
  induction m with
  | nil => simp at h
  | cons hd tl ih =>
    rcases hd with ⟨k', v'⟩
    have hn : k' ∉ keysOf tl ∧ (keysOf tl).Nodup := by
      simpa [distinctKeys, keysOf, List.nodup_cons] using hm
    rcases List.mem_cons.mp h with he | htlmem
    · simp only [Prod.mk.injEq] at he
      simp [plookup, he.1, he.2]
    · have hne : k' ≠ k := by
        intro he
        subst he
        exact hn.1 (by simpa [keysOf] using List.mem_map_of_mem Prod.fst htlmem)
      simp only [plookup, if_neg hne]
      exact ih hn.2 htlmem

theorem distinctKeys_sublist {l m : Params} (h : List.Sublist l m) (hm : distinctKeys m) :
    distinctKeys l := hm.sublist (List.Sublist.map Prod.fst h)

/-- In a key-unique map, a key determines its value. -/
theorem distinctKeys_value_eq {k v v' : String} {m : Params} (hm : distinctKeys m)
    (h : (k, v) ∈ m) (h' : (k, v') ∈ m) : v = v' := by
  have h1 := mem_plookup hm h
  have h2 := mem_plookup hm h'
  rw [h1] at h2
  simpa using h2

/- ── Prefix reasoning ────────────────────────────────────────────────────── -/

theorem lpre_append_self (p t : List Char) : lpre p (p ++ t) = true := by
  induction p with
  | nil => rfl
  | cons c cs ih => simp [lpre, ih]

theorem lpre_total {a b k : List Char} (ha : lpre a k = true) (hb : lpre b k = true) :
    lpre a b = true ∨ lpre b a = true := by
  induction k generalizing a b with
  | nil =>
    cases a with
    | nil => left; rfl
    | cons x xs => simp [lpre] at ha
  | cons c cs ih =>
    cases a with
    | nil => left; rfl
    | cons x xs =>
      cases b with
      | nil => right; rfl
      | cons y ys =>
        simp only [lpre] at ha hb
        by_cases hx : x = c
        · by_cases hy : y = c
          · simp only [if_pos hx] at ha
            simp only [if_pos hy] at hb
            have := ih ha hb
            subst hx; subst hy
            simpa [lpre] using this
          · simp [if_neg hy] at hb
        · simp [if_neg hx] at ha

/-- Two incomparable patterns can never both be prefixes of the same string. -/
theorem sStartsWith_incompat {A B : String} (hab : lpre A.data B.data = false)
    (hba : lpre B.data A.data = false) {k : String}
    (ha : sStartsWith k A = true) (hb : sStartsWith k B = true) : False := by
  rcases lpre_total ha hb with h | h
  · rw [hab] at h; exact Bool.false_ne_true h
  · rw [hba] at h; exact Bool.false_ne_true h

/-- Splitting a list at a distinguished separator character: if neither head
contains the separator, the parts coincide. -/
theorem sep_token_eq {r₁ r₂ u₁ u₂ : List Char} {sep : Char}
    (h₁ : ∀ c ∈ r₁, c ≠ sep) (h₂ : ∀ c ∈ r₂, c ≠ sep)
    (he : r₁ ++ sep :: u₁ = r₂ ++ sep :: u₂) : r₁ = r₂ ∧ u₁ = u₂ := by
  induction r₁ generalizing r₂ with
  | nil =>
    cases r₂ with
    | nil => simpa using he
    | cons y ys =>
      simp only [List.nil_append, List.cons_append, List.cons.injEq] at he
      exact absurd he.1.symm (h₂ y (List.mem_cons_self _ _))
  | cons x xs ih =>
    cases r₂ with
    | nil =>
      simp only [List.nil_append, List.cons_append, List.cons.injEq] at he
      exact absurd he.1 (h₁ x (List.mem_cons_self _ _))
    | cons y ys =>
      simp only [List.cons_append, List.cons.injEq] at he
      obtain ⟨hxy, he'⟩ := he
      have := ih (fun c hc => h₁ c (List.mem_cons_of_mem _ hc))
        (fun c hc => h₂ c (List.mem_cons_of_mem _ hc)) he'
      exact ⟨by simp [hxy, this.1], this.2⟩

/-- An indexed TR-181 key: `P{n}.{suffix}` (e.g. `Device.Hosts.Host.3.IPAddress`). -/
def idxKey (P : String) (n : Nat) (suffix : String) : String :=
  P ++ natRepr n ++ "." ++ suffix

theorem idxKey_inj {P : String} {n₁ n₂ : Nat} {s₁ s₂ : String}
    (h : idxKey P n₁ s₁ = idxKey P n₂ s₂) : n₁ = n₂ ∧ s₁ = s₂ := by
  unfold idxKey at h
  have hdata := congrArg String.data h
  have hdot : (("." : String)).data = ['.'] := rfl
  simp only [String.data_append, hdot] at hdata
  have h1 : P.data ++ ((natRepr n₁).data ++ ('.' :: s₁.data))
      = P.data ++ ((natRepr n₂).data ++ ('.' :: s₂.data)) := by
    simpa [List.append_assoc] using hdata
  have h2 := List.append_cancel_left h1
  have := sep_token_eq (natRepr_no_dot n₁) (natRepr_no_dot n₂) h2
  exact ⟨natRepr_inj (congrArg String.mk this.1), congrArg String.mk this.2⟩

theorem idxKey_startsWith (P : String) (n : Nat) (s : String) :
    sStartsWith (idxKey P n s) P = true := by
  unfold idxKey sStartsWith
  simp only [String.data_append, List.append_assoc]
  exact lpre_append_self P.data _

/- ── The external-collaborator environment ───────────────────────────────── -/

/-- One deterministic snapshot of every external collaborator the handlers
touch (`src/usp/dm/*`, `src/util.rs`, `src/cam.rs`, `src/apply.rs`) together
with the configuration fields the agent reads.  Effectful Rust calls become
lookups in this record. -/
structure Env where
  /-- `cfg.sys_model` -/
  sysModel : String
  /-- `cfg.mac_addr` -/
  macAddr : String
  /-- `util::read_fw_version()` -/
  fwVersion : String
  /-- `util::read_uptime()` -/
  uptime : String
  /-- `util::read_load_avg()` -/
  loadAvg : String
  /-- `util::read_free_mem()` -/
  freeMem : String
  /-- stdout of `uci get <path>` (before trimming) -/
  uciGetOut : String → String
  /-- spawn error of `uci set <path>=<value>`, if the spawn itself failed -/
  uciSetSpawnErr : String → String → Option String
  /-- exit status of `uci set <path>=<value>` -/
  uciSetStatusOk : String → String → Bool
  /-- spawn error of `uci commit <pkg>` -/
  uciCommitSpawnErr : String → Option String
  /-- stdout of `uci show dhcp` -/
  uciShowDhcp : String
  /-- contents of `/etc/hosts` -/
  etcHosts : String
  /-- error from `cam::build_camera_http_client()`, if it failed -/
  camHttpErr : Option String
  /-- `cam::discover_cameras`: `(ip, mac)` per camera found -/
  cameras : List (String × String)
  /-- `cam::capture_image` by camera ip (`none` = capture failed) -/
  captureImage : String → Option (List Nat)
  /-- `reqwest::get` + `bytes()` combined, by url -/
  httpFetch : String → Except String (List Nat)
  /-- error from `tokio::fs::write` at the given path, if it failed -/
  fsWriteErr : String → Option String
  /-- error from `apply::apply_firmware` at the given path, if it failed -/
  applyFwErr : String → Option String
  /-- contents of `cfg.init_cert`, or the read error -/
  initCert : Except String String
  /-- `cfg.fw_dir` -/
  fwDir : String
  /-- the `uuid::Uuid::new_v4()` drawn for a generated message header -/
  freshMsgId : String

/- ── UCI helpers (`src/usp/dm/wifi.rs`, `src/usp/dm/ip.rs`) ───────────────── -/

/-- `uci_get`: run `uci get <path>` and trim its stdout. -/
def uci_get (env : Env) (path : String) : String := sTrim (env.uciGetOut path)

/-- `uci_set`: spawn error maps to `Err(e.to_string())`, a failing exit status
to `Err("uci set {path} failed")`. -/
def uci_set (env : Env) (path value : String) : Except String Unit :=
  match env.uciSetSpawnErr path value with
  | some e => .error e
  | none =>
    if env.uciSetStatusOk path value then .ok ()
    else .error ("uci set " ++ path ++ " failed")

/-- `uci_commit`: only a spawn error is reported; the exit status is ignored. -/
def uci_commit (env : Env) (pkg : String) : Except String Unit :=
  match env.uciCommitSpawnErr pkg with
  | some e => .error e
  | none => .ok ()

/- ── Subtree handlers: GET (`src/usp/dm/*`) ──────────────────────────────── -/

/-- Every pair `device_info::get` can produce, in insertion order. -/
def deviceInfoAll (env : Env) : Params :=
  [("Device.DeviceInfo.HostName", env.sysModel),
   ("Device.DeviceInfo.SoftwareVersion", env.fwVersion),
   ("Device.DeviceInfo.HardwareVersion", env.sysModel),
   ("Device.DeviceInfo.SerialNumber", env.macAddr),
   ("Device.DeviceInfo.UpTime", env.uptime),
   ("Device.DeviceInfo.X_OptimACS_LoadAvg", env.loadAvg),
   ("Device.DeviceInfo.X_OptimACS_FreeMem", env.freeMem)]

/-- `device_info::get`: match on the path with `Device.DeviceInfo.` stripped. -/
def device_info_get (env : Env) (path : String) : Params :=
  let stripped := sTrimStartMatches path "Device.DeviceInfo."
  if stripped = "HostName" ∨ stripped = "" then
    if stripped = "" then deviceInfoAll env
    else [("Device.DeviceInfo.HostName", env.sysModel)]
  else if stripped = "SoftwareVersion" then
    [("Device.DeviceInfo.SoftwareVersion", env.fwVersion)]
  else if stripped = "HardwareVersion" then
    [("Device.DeviceInfo.HardwareVersion", env.sysModel)]
  else if stripped = "SerialNumber" then
    [("Device.DeviceInfo.SerialNumber", env.macAddr)]
  else if stripped = "UpTime" then
    [("Device.DeviceInfo.UpTime", env.uptime)]
  else if stripped = "X_OptimACS_LoadAvg" then
    [("Device.DeviceInfo.X_OptimACS_LoadAvg", env.loadAvg)]
  else if stripped = "X_OptimACS_FreeMem" then
    [("Device.DeviceInfo.X_OptimACS_FreeMem", env.freeMem)]
  else []

/-- The SSID entry of `wifi::get` (only inserted when the SSID is non-empty). -/
def wifiSsidGroup (env : Env) : Params :=
  let ssid := uci_get env "wireless.@wifi-iface[0].ssid"
  if ssid ≠ "" then [("Device.WiFi.SSID.1.SSID", ssid)] else []

/-- The AccessPoint entries of `wifi::get`. -/
def wifiApGroup (env : Env) : Params :=
  [("Device.WiFi.AccessPoint.1.Security.ModeEnabled",
      uci_get env "wireless.@wifi-iface[0].encryption"),
   ("Device.WiFi.AccessPoint.1.Security.KeyPassphrase",
      uci_get env "wireless.@wifi-iface[0].key")]

/-- The Radio entry of `wifi::get`. -/
def wifiRadioGroup (env : Env) : Params :=
  [("Device.WiFi.Radio.1.Channel", uci_get env "wireless.radio0.channel")]

/-- Every pair `wifi::get` can produce. -/
def wifiAll (env : Env) : Params :=
  wifiSsidGroup env ++ wifiApGroup env ++ wifiRadioGroup env

/-- `wifi::get`: three independently guarded groups of UCI reads. -/
def wifi_get (env : Env) (path : String) : Params :=
  (if sContains path "SSID." || sEndsWith path "Device.WiFi." then wifiSsidGroup env
   else []) ++
  (if sContains path "AccessPoint." || sEndsWith path "Device.WiFi." then wifiApGroup env
   else []) ++
  (if sContains path "Radio." || sEndsWith path "Device.WiFi." then wifiRadioGroup env
   else [])

/-- Every pair `ip::get` can produce. -/
def ipAll (env : Env) : Params :=
  [("Device.IP.Interface.1.IPv4Address.1.IPAddress", uci_get env "network.lan.ipaddr"),
   ("Device.IP.Interface.1.IPv4Address.1.SubnetMask", uci_get env "network.lan.netmask"),
   ("Device.IP.Interface.1.IPv4Address.1.AddressingType", uci_get env "network.lan.proto")]

/-- `ip::get`. -/
def ip_get (env : Env) (path : String) : Params :=
  if sStartsWith path "Device.IP.Interface.1.IPv4Address.1."
      ∨ path = "Device.IP.Interface." ∨ path = "Device.IP.Interface.1." then
    ipAll env
  else []

/-- The loop body of `dhcp::get`: lines of `uci show dhcp` holding `host.` and
`.mac=` produce two indexed entries each. -/
def dhcp_entries (allLines : List String) : List String → Nat → Params
  | [], _ => []
  | line :: rest, idx =>
    if sContains line "host." && sContains line ".mac=" then
      let mac := sTrimMatches '\'' (((sSplitChar '=' line)[1]?).getD "")
      let ipk := sReplace line ".mac=" ".ip="
      let ip := sTrimMatches '\''
        (((allLines.find? (fun l => sContains l ipk)).bind
            (fun l => (sSplitChar '=' l)[1]?)).getD "")
      (idxKey "Device.DHCPv4.Server.Pool.1.StaticAddress." idx "Chaddr", mac) ::
      (idxKey "Device.DHCPv4.Server.Pool.1.StaticAddress." idx "Yiaddr", ip) ::
      dhcp_entries allLines rest (idx + 1)
    else dhcp_entries allLines rest idx

/-- `dhcp::get` (the requested path is ignored). -/
def dhcp_get (env : Env) (_path : String) : Params :=
  dhcp_entries (sLines env.uciShowDhcp) (sLines env.uciShowDhcp) 1

/-- The loop body of `hosts::get` over the lines of `/etc/hosts`. -/
def hosts_entries : List String → Nat → Params
  | [], _ => []
  | rawLine :: rest, idx =>
    let line := sTrim rawLine
    if line = "" ∨ sStartsWith line "#" then hosts_entries rest idx
    else
      let parts := sSplitWhitespace line
      let ip := (parts[0]?).getD ""
      let hostname := (parts[1]?).getD ""
      if ip ≠ "" ∧ hostname ≠ "" then
        (idxKey "Device.Hosts.Host." idx "IPAddress", ip) ::
        (idxKey "Device.Hosts.Host." idx "HostName", hostname) ::
        hosts_entries rest (idx + 1)
      else hosts_entries rest idx

/-- `hosts::get` (the requested path is ignored). -/
def hosts_get (env : Env) (_path : String) : Params :=
  hosts_entries (sLines env.etcHosts) 1

/-- The enumeration loop of `cameras::get` (`i` starts at 0, keys use `i + 1`). -/
def cam_entries : List (String × String) → Nat → Params
  | [], _ => []
  | c :: rest, i =>
    (idxKey "Device.X_OptimACS_Camera." (i + 1) "IPAddress", c.1) ::
    (idxKey "Device.X_OptimACS_Camera." (i + 1) "MACAddress", c.2) ::
    cam_entries rest (i + 1)

/-- `cameras::get`: empty when the HTTP client cannot be built. -/
def cameras_get (env : Env) (_path : String) : Params :=
  match env.camHttpErr with
  | some _ => []
  | none => cam_entries env.cameras 0

/-- `firmware::get`. -/
def firmware_get (env : Env) (path : String) : Params :=
  if sEndsWith path "AvailableVersion" || sEndsWith path "Device.X_OptimACS_Firmware." then
    [("Device.X_OptimACS_Firmware.AvailableVersion", env.fwVersion)]
  else []

/-- `dispatch_get` (`src/usp/dm/mod.rs`): route a GET by path prefix; an
unknown prefix contributes nothing. -/
def dispatch_get (env : Env) (path : String) : Params :=
  if sStartsWith path "Device.DeviceInfo." then device_info_get env path
  else if sStartsWith path "Device.WiFi." then wifi_get env path
  else if sStartsWith path "Device.IP.Interface." then ip_get env path
  else if sStartsWith path "Device.DHCPv4." then dhcp_get env path
  else if sStartsWith path "Device.Hosts." then hosts_get env path
  else if sStartsWith path "Device.X_OptimACS_Camera." then cameras_get env path
  else if sStartsWith path "Device.X_OptimACS_Firmware." then firmware_get env path
  else []

/-- `get_params` (`src/usp/dm/mod.rs`): aggregate the handler results, with the
depth filter applied when `max_depth` is non-zero. -/
def get_params (env : Env) (paths : List String) (max_depth : Nat) : Params :=
  paths.foldl
    (fun result path =>
      let fromHandler := dispatch_get env path
      if max_depth = 0 then pextend result fromHandler
      else
        let base_depth := dotCount path
        pextend result
          (fromHandler.filter (fun kv => dotCount kv.1 ≤ base_depth + max_depth)))
    []

/- ── Subtree handlers: SET (`src/usp/dm/*`) ──────────────────────────────── -/

/-- A UCI mutation performed by a SET handler: the model's effect trace.
Earlier updates of a SET are visible in the trace even when a later update
fails (there is no rollback). -/
inductive UciOp where
  | uset (path value : String)
  | ucommit (pkg : String)
deriving DecidableEq

/-- One `uci_set(...)?; uci_commit(pkg)?` step of `wifi::set`. -/
def wifi_set_step (env : Env) (upath value pkg : String) :
    Except String Unit × List UciOp :=
  match uci_set env upath value with
  | .error e => (.error e, [])
  | .ok _ =>
    match uci_commit env pkg with
    | .error e => (.error e, [.uset upath value])
    | .ok _ => (.ok (), [.uset upath value, .ucommit pkg])

/-- `wifi::set`: four writable suffixes; an unknown suffix only logs a warning
and returns `Ok(())`. -/
def wifi_set (env : Env) (path value : String) : Except String Unit × List UciOp :=
  if sEndsWith path ".SSID" then
    wifi_set_step env "wireless.@wifi-iface[0].ssid" value "wireless"
  else if sEndsWith path ".KeyPassphrase" then
    wifi_set_step env "wireless.@wifi-iface[0].key" value "wireless"
  else if sEndsWith path ".ModeEnabled" then
    wifi_set_step env "wireless.@wifi-iface[0].encryption" value "wireless"
  else if sEndsWith path ".Channel" then
    wifi_set_step env "wireless.radio0.channel" value "wireless"
  else
    (.ok (), [])

/-- `device_info::set`: always an error. -/
def device_info_set (_env : Env) (_path _value : String) :
    Except String Unit × List UciOp :=
  (.error "Device.DeviceInfo.* is read-only", [])

/-- `ip::set`: three writable suffixes, then an unconditional `uci commit
network` whose result is discarded; an unmatched suffix still commits and
returns `Ok(())`. -/
def ip_set (env : Env) (path value : String) : Except String Unit × List UciOp :=
  match (if sEndsWith path ".IPAddress" then some "network.lan.ipaddr"
         else if sEndsWith path ".SubnetMask" then some "network.lan.netmask"
         else if sEndsWith path ".AddressingType" then some "network.lan.proto"
         else none) with
  | some upath =>
    match uci_set env upath value with
    | .error e => (.error e, [])
    | .ok _ => (.ok (), [.uset upath value, .ucommit "network"])
  | none => (.ok (), [.ucommit "network"])

/-- `dhcp::set`: not implemented. -/
def dhcp_set (_env : Env) (_path _value : String) : Except String Unit × List UciOp :=
  (.error "DHCPv4 static address modification not yet implemented on agent side", [])

/-- `hosts::set`: not implemented. -/
def hosts_set (_env : Env) (_path _value : String) : Except String Unit × List UciOp :=
  (.error "Device.Hosts.Host.* modification not yet implemented on agent side", [])

/-- `security::set`: `Ok(())` — cert SET is handled elsewhere. -/
def security_set (_env : Env) (_path _value : String) : Except String Unit × List UciOp :=
  (.ok (), [])

/-- `dispatch_set` (`src/usp/dm/mod.rs`): route a SET by path prefix. -/
def dispatch_set (env : Env) (path value : String) : Except String Unit × List UciOp :=
  if sStartsWith path "Device.DeviceInfo." then device_info_set env path value
  else if sStartsWith path "Device.WiFi." then wifi_set env path value
  else if sStartsWith path "Device.IP.Interface." then ip_set env path value
  else if sStartsWith path "Device.DHCPv4." then dhcp_set env path value
  else if sStartsWith path "Device.Hosts." then hosts_set env path value
  else if sStartsWith path "Device.X_OptimACS_Security." then security_set env path value
  else (.error ("read-only or unknown path: " ++ path), [])

/-- `set_params` (`src/usp/dm/mod.rs`): apply the updates in order; the first
failure aborts and its error is returned verbatim.  The second component is
the trace of UCI mutations performed. -/
def set_params (env : Env) : List (String × String) → Except String Unit × List UciOp
  | [] => (.ok (), [])
  | (path, value) :: rest =>
    match dispatch_set env path value with
    | (.error e, ops) => (.error e, ops)
    | (.ok _, ops) =>
      let r := set_params env rest
      (r.1, ops ++ r.2)

/- ── Subtree handlers: OPERATE ───────────────────────────────────────────── -/

/-- `usize::from_str` on an all-digit token (`""` fails to parse). -/
def parseUsize (s : String) : Option Nat :=
  if s ≠ "" ∧ s.data.all (fun c => c.isDigit) then some (digitsVal s.data) else none

/-- `cameras::operate_capture`. -/
def cameras_operate_capture (env : Env) (command : String) (_input_args : Params) :
    Except String Params :=
  match env.camHttpErr with
  | some e => .error e
  | none =>
    let idx := (((sSplitChar '.' command).find?
        (fun s => s.data.all (fun c => c.isDigit))).bind parseUsize).getD 1
    match env.cameras[idx - 1]? with
    | none => .error ("camera " ++ natRepr idx ++ " not found")
    | some cam =>
      match env.captureImage cam.1 with
      | none => .error "capture failed"
      | some image =>
        .ok [("image_size", natRepr image.length), ("camera_ip", cam.1)]

/-- `firmware::operate_download`. -/
def firmware_operate_download (env : Env) (_command : String) (input_args : Params) :
    Except String Params :=
  let fwUrl := (plookup "url" input_args).getD ""
  if fwUrl = "" then .error "firmware download requires 'url' input arg"
  else
    let fwPath := env.fwDir ++ "/firmware.bin"
    match env.httpFetch fwUrl with
    | .error e => .error e
    | .ok _bytes =>
      match env.fsWriteErr fwPath with
      | some e => .error e
      | none =>
        match env.applyFwErr fwPath with
        | some e => .error e
        | none => .ok [("status", "applied")]

/-- `security::operate_issue_cert`. -/
def security_operate_issue_cert (env : Env) (_command : String) (_input_args : Params) :
    Except String Params :=
  match env.initCert with
  | .error e => .error e
  | .ok certPem => .ok [("csr", certPem)]

/-- `operate` (`src/usp/dm/mod.rs`): route by command prefix and suffix. -/
def dm_operate (env : Env) (command : String) (input_args : Params) :
    Except String Params :=
  if sStartsWith command "Device.X_OptimACS_Camera." && sEndsWith command ".Capture()" then
    cameras_operate_capture env command input_args
  else if sStartsWith command "Device.X_OptimACS_Firmware."
      && sEndsWith command ".Download()" then
    firmware_operate_download env command input_args
  else if sStartsWith command "Device.X_OptimACS_Security."
      && sEndsWith command ".IssueCert()" then
    security_operate_issue_cert env command input_args
  else .error ("unknown command: " ++ command)

/- ── USP Msg data model ──────────────────────────────────────────────────── -/

/-- Modelled from the spec: the `usp-msg.proto` schema is not among the
repository's source files (it is compiled by `build.rs`); the message-type
enum members are listed in spec §3, with the standard TR-369 wire numbers. -/
inductive MessageType where
  | error
  | get
  | getResp
  | notify
  | set
  | setResp
  | operate
  | operateResp
  | add
  | addResp
  | delete
  | deleteResp
  | getSupportedDm
  | getSupportedDmResp
  | getInstances
  | getInstancesResp
  | notifyResp
  | getSupportedProto
  | getSupportedProtoResp
deriving DecidableEq

/-- The wire number of a message type (`msg_type as i32`). -/
def MessageType.code : MessageType → Int
  | .error => 0
  | .get => 1
  | .getResp => 2
  | .notify => 3
  | .set => 4
  | .setResp => 5
  | .operate => 6
  | .operateResp => 7
  | .add => 8
  | .addResp => 9
  | .delete => 10
  | .deleteResp => 11
  | .getSupportedDm => 12
  | .getSupportedDmResp => 13
  | .getInstances => 14
  | .getInstancesResp => 15
  | .notifyResp => 16
  | .getSupportedProto => 17
  | .getSupportedProtoResp => 18

/-- `MessageType::try_from(i32)`: defined wire numbers only. -/
def MessageType.tryFrom (n : Int) : Option MessageType :=
  if n = 0 then some .error
  else if n = 1 then some .get
  else if n = 2 then some .getResp
  else if n = 3 then some .notify
  else if n = 4 then some .set
  else if n = 5 then some .setResp
  else if n = 6 then some .operate
  else if n = 7 then some .operateResp
  else if n = 8 then some .add
  else if n = 9 then some .addResp
  else if n = 10 then some .delete
  else if n = 11 then some .deleteResp
  else if n = 12 then some .getSupportedDm
  else if n = 13 then some .getSupportedDmResp
  else if n = 14 then some .getInstances
  else if n = 15 then some .getInstancesResp
  else if n = 16 then some .notifyResp
  else if n = 17 then some .getSupportedProto
  else if n = 18 then some .getSupportedProtoResp
  else none

/-- `Header` of a USP Msg. -/
structure Header where
  msg_id : String
  msg_type : Int
deriving DecidableEq

structure GetReq where
  param_paths : List String
  max_depth : Nat
deriving DecidableEq

structure ParamSetting where
  param : String
  value : String
deriving DecidableEq

structure UpdateObj where
  obj_path : String
  param_settings : List ParamSetting
deriving DecidableEq

structure SetReq where
  update_objs : List UpdateObj
deriving DecidableEq

structure OperateReq where
  command : String
  command_key : String
  input_args : Params
deriving DecidableEq

inductive Notification where
  | event (obj_path event_name command_key : String) (params : Params)
  | valueChange (param_path param_value : String)
deriving DecidableEq

structure NotifyMsg where
  subscription_id : String
  send_resp : Bool
  notification : Option Notification
deriving DecidableEq

structure GetSupportedProtoReq where
  controller_supported_versions : String
deriving DecidableEq

inductive ReqType where
  | get (g : GetReq)
  | set (s : SetReq)
  | operate (o : OperateReq)
  | notify (n : NotifyMsg)
  | getSupportedProto (g : GetSupportedProtoReq)
deriving DecidableEq

structure Request where
  req_type : Option ReqType
deriving DecidableEq

structure ResolvedPathResult where
  resolved_path : String
  result_params : Params
deriving DecidableEq

structure RequestedPathResult where
  requested_path : String
  err_code : Nat
  err_msg : String
  resolved_path_results : List ResolvedPathResult
deriving DecidableEq

structure GetRespBody where
  req_path_results : List RequestedPathResult
deriving DecidableEq

inductive OperStatus where
  | operFailure (err_code : Nat) (err_msg : String)
  | operSuccess (updated_inst_results : List Unit)
deriving DecidableEq

structure UpdatedObjectResult where
  requested_path : String
  oper_status : Option OperStatus
deriving DecidableEq

structure SetRespBody where
  updated_obj_results : List UpdatedObjectResult
deriving DecidableEq

inductive OperateRespType where
  | reqOutputArgs (output_args : Params)
  | cmdFailure (err_code : Nat) (err_msg : String)
deriving DecidableEq

structure OperationResult where
  executed_command : String
  operate_resp_type : Option OperateRespType
deriving DecidableEq

structure OperateRespBody where
  command_key : String
  operation_results : List OperationResult
deriving DecidableEq

structure NotifyRespBody where
  subscription_id : String
deriving DecidableEq

structure GetSupportedProtoRespBody where
  agent_supported_versions : String
deriving DecidableEq

inductive RespType where
  | getResp (g : GetRespBody)
  | setResp (s : SetRespBody)
  | operateResp (o : OperateRespBody)
  | notifyResp (n : NotifyRespBody)
  | getSupportedProtoResp (g : GetSupportedProtoRespBody)
deriving DecidableEq

structure Response where
  resp_type : Option RespType
deriving DecidableEq

structure ErrorBody where
  err_code : Nat
  err_msg : String
  param_errs : List Unit
deriving DecidableEq

inductive MsgBody where
  | request (r : Request)
  | response (r : Response)
  | error (e : ErrorBody)
deriving DecidableEq

structure Body where
  msg_body : Option MsgBody
deriving DecidableEq

structure Msg where
  header : Option Header
  body : Option Body
deriving DecidableEq

/-- The decode result of a byte string carrying a USP Msg: `none` stands for
bytes `decode_msg` rejects.  `encode_msg` into a `Vec` cannot fail, so an
encoded response is identified with its message. -/
abbrev Payload := Option Msg

/- ── Message builders (`src/usp/message.rs`) ─────────────────────────────── -/

/-- `make_header`: a fresh uuid message id with the given type. -/
def make_header (env : Env) (msg_type : MessageType) : Header :=
  ⟨env.freshMsgId, msg_type.code⟩

/-- `build_boot_notify`. -/
def build_boot_notify (env : Env) (subscription_id : String) (send_resp : Bool)
    (parameter_map : Params) : Msg :=
  ⟨some (make_header env .notify),
   some ⟨some (.request ⟨some (.notify
     ⟨subscription_id, send_resp,
      some (.event "Device." "Boot!" "" parameter_map)⟩)⟩)⟩⟩

/-- `build_value_change_notify`. -/
def build_value_change_notify (env : Env) (subscription_id param_path param_value : String) :
    Msg :=
  ⟨some (make_header env .notify),
   some ⟨some (.request ⟨some (.notify
     ⟨subscription_id, false, some (.valueChange param_path param_value)⟩)⟩)⟩⟩

/-- `build_get_supported_proto`. -/
def build_get_supported_proto (env : Env) : Msg :=
  ⟨some (make_header env .getSupportedProto),
   some ⟨some (.request ⟨some (.getSupportedProto ⟨"1.3"⟩)⟩)⟩⟩

/-- `build_notify_resp`. -/
def build_notify_resp (msg_id subscription_id : String) : Msg :=
  ⟨some ⟨msg_id, MessageType.notifyResp.code⟩,
   some ⟨some (.response ⟨some (.notifyResp ⟨subscription_id⟩)⟩)⟩⟩

/-- `build_operate_resp`. -/
def build_operate_resp (msg_id command command_key : String) (output_args : Params) : Msg :=
  ⟨some ⟨msg_id, MessageType.operateResp.code⟩,
   some ⟨some (.response ⟨some (.operateResp
     ⟨command_key, [⟨command, some (.reqOutputArgs output_args)⟩]⟩)⟩)⟩⟩

/-- `build_set_resp`: one `OperSuccess` result per updated object path. -/
def build_set_resp (msg_id : String) (updated_obj_paths : List String) : Msg :=
  ⟨some ⟨msg_id, MessageType.setResp.code⟩,
   some ⟨some (.response ⟨some (.setResp
     ⟨updated_obj_paths.map (fun p => ⟨p, some (.operSuccess [])⟩)⟩)⟩)⟩⟩

/-- `build_error`. -/
def build_error (msg_id : String) (err_code : Nat) (err_msg : String) : Msg :=
  ⟨some ⟨msg_id, MessageType.error.code⟩,
   some ⟨some (.error ⟨err_code, err_msg, []⟩)⟩⟩

/- ── Agent message engine (`src/usp/agent.rs`) ───────────────────────────── -/

/-- `build_get_resp` (`agent.rs`): one `RequestedPathResult` per `(key, value)`
pair of the aggregated parameter map, each with a single `ResolvedPathResult`
whose `result_params` is the single-entry map keyed by the empty string. -/
def build_get_resp (msg_id : String) (params : Params) : Option Msg :=
  some ⟨some ⟨msg_id, MessageType.getResp.code⟩,
    some ⟨some (.response ⟨some (.getResp
      ⟨params.map (fun kv => ⟨kv.1, 0, "", [⟨kv.1, [("", kv.2)]⟩]⟩)⟩)⟩)⟩⟩

/-- `extract` of the Get branch of `handle_incoming`. -/
def extract_get_args (body : Body) : List String × Nat :=
  match body.msg_body with
  | some (.request req) =>
    match req.req_type with
    | some (.get g) => (g.param_paths, g.max_depth)
    | _ => ([], 0)
  | _ => ([], 0)

/-- `extract_set_updates`. -/
def extract_set_updates (body : Body) : List (String × String) :=
  match body.msg_body with
  | some (.request req) =>
    match req.req_type with
    | some (.set s) =>
      s.update_objs.flatMap (fun obj =>
        obj.param_settings.map (fun ps => (obj.obj_path ++ ps.param, ps.value)))
    | _ => []
  | _ => []

/-- `extract_set_obj_paths`. -/
def extract_set_obj_paths (body : Body) : List String :=
  match body.msg_body with
  | some (.request req) =>
    match req.req_type with
    | some (.set s) => s.update_objs.map (fun obj => obj.obj_path)
    | _ => []
  | _ => []

/-- `extract_operate`. -/
def extract_operate (body : Body) : String × String × Params :=
  match body.msg_body with
  | some (.request req) =>
    match req.req_type with
    | some (.operate op) => (op.command, op.command_key, op.input_args)
    | _ => ("", "", [])
  | _ => ("", "", [])

/-- `extract_supported_versions`: split at commas and trim each token. -/
def extract_supported_versions (body : Body) : List String :=
  match body.msg_body with
  | some (.response resp) =>
    match resp.resp_type with
    | some (.getSupportedProtoResp r) =>
      (sSplitChar ',' r.agent_supported_versions).map sTrim
    | _ => []
  | _ => []

/-- `collect_boot_params`. -/
def collect_boot_params (env : Env) : Params :=
  [("Device.DeviceInfo.HostName", env.sysModel),
   ("Device.DeviceInfo.SoftwareVersion", env.fwVersion),
   ("Device.DeviceInfo.HardwareVersion", env.sysModel),
   ("Device.DeviceInfo.SerialNumber", env.macAddr),
   ("Device.DeviceInfo.UpTime", env.uptime),
   ("Device.DeviceInfo.X_OptimACS_LoadAvg", env.loadAvg),
   ("Device.DeviceInfo.X_OptimACS_FreeMem", env.freeMem),
   ("Cause", "LocalReboot"),
   ("FirmwareUpdated", "false")]

/-- `handle_incoming`: decode, dispatch by message type, build the reply.
Returns the optional encoded response and the (possibly updated) negotiated
version cell. -/
def handle_incoming (env : Env) (decoded : Payload) (negotiated_ver : String) :
    Option Msg × String :=
  match decoded with
  | none => (none, negotiated_ver)
  | some msg =>
    match msg.header with
    | none => (none, negotiated_ver)
    | some header =>
      let msg_id := header.msg_id
      match MessageType.tryFrom header.msg_type with
      | none => (none, negotiated_ver)
      | some msg_type =>
        match msg.body with
        | none => (none, negotiated_ver)
        | some body =>
          match msg_type with
          | .get =>
            let args := extract_get_args body
            let params := get_params env args.1 args.2
            (build_get_resp msg_id params, negotiated_ver)
          | .set =>
            let updates := extract_set_updates body
            let obj_paths := extract_set_obj_paths body
            match (set_params env updates).1 with
            | .ok _ => (some (build_set_resp msg_id obj_paths), negotiated_ver)
            | .error e => (some (build_error msg_id 7200 e), negotiated_ver)
          | .operate =>
            let ext := extract_operate body
            match dm_operate env ext.1 ext.2.2 with
            | .ok output =>
              (some (build_operate_resp msg_id ext.1 ext.2.1 output), negotiated_ver)
            | .error e => (some (build_error msg_id 7800 e), negotiated_ver)
          | .notifyResp => (none, negotiated_ver)
          | .getSupportedProtoResp =>
            let versions := extract_supported_versions body
            let newVer :=
              match versions.head? with
              | some v => v
              | none => negotiated_ver
            (some (build_boot_notify env "" false (collect_boot_params env)), newVer)
          | .getSupportedDm | .getInstances | .add | .delete =>
            (some (build_error msg_id 7004 "NOT_SUPPORTED"), negotiated_ver)
          | _ => (some (build_error msg_id 7000 "MESSAGE_NOT_UNDERSTOOD"), negotiated_ver)

/- ── SessionContext (`src/usp/session.rs`) ───────────────────────────────── -/

/-- `u64` modulus: the sequence counter wraps here. -/
def U64 : Nat := 2 ^ 64

structure SessionContext where
  session_id : Nat
  next_seq : Nat
  expected_id : Nat
  retransmit_buf : List (Nat × List Nat)
deriving DecidableEq

/-- `SessionContext::new`. -/
def SessionContext.new (session_id : Nat) : SessionContext :=
  ⟨session_id, 1, 1, []⟩

/-- `next_sequence_id`: allocate the current `next_seq`, increment it (u64
arithmetic), push the payload into the retransmit buffer, and evict the
oldest entry when the buffer exceeds 256. -/
def SessionContext.next_sequence_id (s : SessionContext) (payload : List Nat) :
    Nat × SessionContext :=
  let seq := s.next_seq
  let buf := s.retransmit_buf ++ [(seq, payload)]
  let buf := if buf.length > 256 then buf.tail else buf
  (seq, { s with next_seq := (s.next_seq + 1) % U64, retransmit_buf := buf })

/-- `advance_expected`. -/
def SessionContext.advance_expected (s : SessionContext) : SessionContext :=
  { s with expected_id := (s.expected_id + 1) % U64 }

/-- `retransmit`: linear search of the buffer. -/
def SessionContext.retransmit (s : SessionContext) (seq_id : Nat) : Option (List Nat) :=
  (s.retransmit_buf.find? (fun e => e.1 = seq_id)).map Prod.snd

/-- A sequence of `next_sequence_id` calls: the returned ids and final state. -/
def applyCalls (s : SessionContext) : List (List Nat) → List Nat × SessionContext
  | [] => ([], s)
  | p :: ps =>
    let r := s.next_sequence_id p
    let rest := applyCalls r.2 ps
    (r.1 :: rest.1, rest.2)

/- ── USP Record and the MTP serve loops ──────────────────────────────────── -/

/-- `usp_record::record::RecordType` (schema not under `src/`; shape per spec §3). -/
inductive RecordType where
  | noSessionContext (payload : Payload)
  | sessionContext (session_id sequence_id expected_id payload_sar_state : Nat)
      (payload : List Payload)
  | websocketConnect
  | mqttConnect (version : Nat) (subscribed_topic : String)
  | disconnect (reason : String) (reason_code : Nat)
deriving DecidableEq

structure Record where
  version : String
  to_id : String
  from_id : String
  payload_security : Nat
  mac_signature : List Nat
  sender_cert : List Nat
  record_type : Option RecordType
deriving DecidableEq

/-- `no_session_record` (`src/usp/record.rs`). -/
def no_session_record (from_id to_id : String) (msg_bytes : Payload) (usp_version : String) :
    Record :=
  ⟨usp_version, to_id, from_id, 0, [], [], some (.noSessionContext msg_bytes)⟩

/-- `websocket_connect_record`. -/
def websocket_connect_record (from_id to_id : String) : Record :=
  ⟨"1.3", to_id, from_id, 0, [], [], some .websocketConnect⟩

/-- `mqtt_connect_record`. -/
def mqtt_connect_record (from_id to_id subscribed_topic : String) : Record :=
  ⟨"1.3", to_id, from_id, 0, [], [], some (.mqttConnect 0 subscribed_topic)⟩

/-- `extract_msg_payload`: `NoSessionContext.payload`, or the first
`SessionContext` segment (no reassembly). -/
def extract_msg_payload (record : Record) : Option Payload :=
  match record.record_type with
  | some (.noSessionContext p) => some p
  | some (.sessionContext _ _ _ _ payload) => payload.head?
  | _ => none

/-- One `Message::Binary` iteration of the WebSocket serve loop
(`src/usp/mtp/websocket.rs`, `connect_and_serve`): decode, `to_id` check,
payload extraction, `handle_incoming`, and the optional response Record sent
back with the version read after handling. -/
def ws_handle_binary (env : Env) (agent_id : String) (decodedRecord : Option Record)
    (negotiated_ver : String) : Option Record × String :=
  match decodedRecord with
  | none => (none, negotiated_ver)
  | some record =>
    if record.to_id ≠ "" ∧ record.to_id ≠ agent_id then (none, negotiated_ver)
    else
      match extract_msg_payload record with
      | none => (none, negotiated_ver)
      | some msg_bytes =>
        match handle_incoming env msg_bytes negotiated_ver with
        | (some resp, ver) =>
          (some (no_session_record agent_id record.from_id (some resp) ver), ver)
        | (none, ver) => (none, ver)

/-- One `Packet::Publish` iteration of the MQTT serve loop
(`src/usp/mtp/mqtt.rs`, `mqtt_loop`): same record handling; the response is
published to the controller topic. -/
def mqtt_handle_publish (env : Env) (agent_id : String) (decodedRecord : Option Record)
    (negotiated_ver : String) : Option Record × String :=
  match decodedRecord with
  | none => (none, negotiated_ver)
  | some record =>
    if record.to_id ≠ "" ∧ record.to_id ≠ agent_id then (none, negotiated_ver)
    else
      match extract_msg_payload record with
      | none => (none, negotiated_ver)
      | some msg_bytes =>
        match handle_incoming env msg_bytes negotiated_ver with
        | (some resp, ver) =>
          (some (no_session_record agent_id record.from_id (some resp) ver), ver)
        | (none, ver) => (none, ver)

/-- `sanitise_topic` (`src/usp/mtp/mqtt.rs`). -/
def sanitise_topic (s : String) : String :=
  sReplace (sReplace (sReplace s ":" "%3A") "#" "%23") "+" "%2B"

/-- Processing a sequence of decoded inbound messages over the shared
negotiated-version cell: the cell value after the sequence. -/
def cellAfter (env : Env) (ver : String) (msgs : List Payload) : String :=
  msgs.foldl (fun v p => (handle_incoming env p v).2) ver

/- ── Concrete instances for closed evaluations ───────────────────────────── -/

/-- A concrete environment snapshot used by the closed instances below. -/
def defaultEnv : Env :=
  ⟨"model-x", "00:11:22:33:44:55", "1.0.0", "12345", "0.50", "1024",
   fun _ => "", fun _ _ => none, fun _ _ => true, fun _ => none,
   "", "", none, [], fun _ => none, fun _ => .error "no network",
   fun _ => none, fun _ => none, .ok "CERT", "/tmp/fw", "uuid-1"⟩

/-- A Get request message (the wire number of Get is 1). -/
def mkGetMsg (msg_id : String) (paths : List String) (max_depth : Nat) : Msg :=
  ⟨some ⟨msg_id, 1⟩, some ⟨some (.request ⟨some (.get ⟨paths, max_depth⟩)⟩)⟩⟩

/-- A Set request message (wire number 4). -/
def mkSetMsg (msg_id : String) (objs : List UpdateObj) : Msg :=
  ⟨some ⟨msg_id, 4⟩, some ⟨some (.request ⟨some (.set ⟨objs⟩)⟩)⟩⟩

/-- An Operate request message (wire number 6). -/
def mkOperateMsg (msg_id command command_key : String) (input_args : Params) : Msg :=
  ⟨some ⟨msg_id, 6⟩, some ⟨some (.request ⟨some (.operate ⟨command, command_key, input_args⟩)⟩)⟩⟩

/-- A GetSupportedProtoResp message (wire number 18). -/
def mkGsprMsg (msg_id agent_supported_versions : String) : Msg :=
  ⟨some ⟨msg_id, 18⟩,
   some ⟨some (.response ⟨some (.getSupportedProtoResp ⟨agent_supported_versions⟩)⟩)⟩⟩

instance : DecidableEq (Except String Unit) := fun a b =>
  match a, b with
  | .ok (), .ok () => isTrue rfl
  | .error e, .error f =>
    if h : e = f then isTrue (by rw [h]) else isFalse (by simp [h])
  | .ok _, .error _ => isFalse (by simp)
  | .error _, .ok _ => isFalse (by simp)

/- ── C10 ─────────────────────────────────────────────────────────────────── -/

/-- C10: for every inbound byte string that fails to decode as a Msg, or
decodes to a Msg lacking a header, lacking a body, or whose `header.msg_type`
wire number is not a defined `MessageType` value, `handle_incoming` returns
none: no response and no Error record (in particular no Error 7000) is
emitted, and the negotiated-version cell is untouched. -/
theorem c10_undecodable_silently_dropped (env : Env) (ver : String) (p : Payload)
    (h : p = none ∨ ∃ m, p = some m ∧
      (m.header = none
        ∨ (∃ hd, m.header = some hd ∧ MessageType.tryFrom hd.msg_type = none)
        ∨ m.body = none)) :
    handle_incoming env p ver = (none, ver) := by
  rcases h with rfl | ⟨m, rfl, hbad⟩
  · rfl
  · obtain ⟨mh, mb⟩ := m
    rcases hbad with hh | ⟨hd, hh, ht⟩ | hb
    · simp only at hh
      subst hh
      rfl
    · simp only at hh
      subst hh
      simp [handle_incoming, ht]
    · simp only at hb
      subst hb
      cases mh with
      | none => rfl
      | some hd =>
        cases htf : MessageType.tryFrom hd.msg_type with
        | none => simp [handle_incoming, htf]
        | some t => simp [handle_incoming, htf]

theorem c10_undecodable_silently_dropped_witness :
    handle_incoming defaultEnv none "1.3" = (none, "1.3") :=
  c10_undecodable_silently_dropped defaultEnv "1.3" none (Or.inl rfl)

/- ── C5 ──────────────────────────────────────────────────────────────────── -/

/-- C5: an inbound Record whose `to_id` is non-empty and different from the
agent endpoint id produces no outbound frame on either MTP serve loop, and
leaves the negotiated version unchanged. -/
theorem c5_addressing_discard (env : Env) (agent_id ver : String) (record : Record)
    (hne : record.to_id ≠ "") (hnid : record.to_id ≠ agent_id) :
    ws_handle_binary env agent_id (some record) ver = (none, ver) ∧
    mqtt_handle_publish env agent_id (some record) ver = (none, ver) := by
  constructor
  · simp [ws_handle_binary, hne, hnid]
  · simp [mqtt_handle_publish, hne, hnid]

theorem c5_addressing_discard_witness :
    ws_handle_binary defaultEnv "agent-1"
        (some (no_session_record "controller-1" "someone-else" none "1.3")) "1.3"
      = (none, "1.3") ∧
    mqtt_handle_publish defaultEnv "agent-1"
        (some (no_session_record "controller-1" "someone-else" none "1.3")) "1.3"
      = (none, "1.3") :=
  c5_addressing_discard defaultEnv "agent-1" "1.3"
    (no_session_record "controller-1" "someone-else" none "1.3")
    (by decide) (by decide)

/- ── C6 ──────────────────────────────────────────────────────────────────── -/

/-- C6: a GetSupportedProtoResp stores the first trimmed token of the
comma-separated `agent_supported_versions` into the negotiated-version cell
and replies with a `Boot!` Notify (`obj_path = "Device."`, empty command key)
whose params carry `Cause = "LocalReboot"`, `FirmwareUpdated = "false"` and
the `Device.DeviceInfo` boot parameters; for `"1.4, 1.3"` the version becomes
`"1.4"`. -/
theorem c6_version_negotiation_boot (env : Env) (ver m avs : String) :
    handle_incoming env (some (mkGsprMsg m avs)) ver
      = (some (build_boot_notify env "" false (collect_boot_params env)),
          ((((sSplitChar ',' avs).map sTrim).head?).getD ver)) ∧
    ((((sSplitChar ',' "1.4, 1.3").map sTrim).head?).getD ver) = "1.4" ∧
    build_boot_notify env "" false (collect_boot_params env)
      = ⟨some ⟨env.freshMsgId, 3⟩,
         some ⟨some (.request ⟨some (.notify ⟨"", false,
           some (.event "Device." "Boot!" "" (collect_boot_params env))⟩)⟩)⟩⟩ ∧
    collect_boot_params env
      = [("Device.DeviceInfo.HostName", env.sysModel),
         ("Device.DeviceInfo.SoftwareVersion", env.fwVersion),
         ("Device.DeviceInfo.HardwareVersion", env.sysModel),
         ("Device.DeviceInfo.SerialNumber", env.macAddr),
         ("Device.DeviceInfo.UpTime", env.uptime),
         ("Device.DeviceInfo.X_OptimACS_LoadAvg", env.loadAvg),
         ("Device.DeviceInfo.X_OptimACS_FreeMem", env.freeMem),
         ("Cause", "LocalReboot"),
         ("FirmwareUpdated", "false")] := by
  refine ⟨?_, rfl, rfl, rfl⟩
  have h18 : MessageType.tryFrom 18 = some .getSupportedProtoResp := by decide
  cases hv : ((sSplitChar ',' avs).map sTrim).head? with
  | none =>
    simp [handle_incoming, mkGsprMsg, extract_supported_versions, hv, Option.getD, h18]
  | some v =>
    simp [handle_incoming, mkGsprMsg, extract_supported_versions, hv, Option.getD, h18]

/- ── C1 ──────────────────────────────────────────────────────────────────── -/

/-- The number of `RequestedPathResult` entries of a GetResp reply. -/
def getRespResultCount (m : Msg) : Option Nat :=
  match m.body with
  | some ⟨some (.response ⟨some (.getResp g)⟩)⟩ => some g.req_path_results.length
  | _ => none

/-- C1 counterexample: for the Get request `msg_id = "m1"`,
`param_paths = ["A"]`, `max_depth = 0` — one requested path — the reply
carries zero `RequestedPathResult` entries (the path matches no handler), not
one per requested path as claimed: `build_get_resp` emits one entry per
aggregated `(key, value)` pair, not per requested path. -/
theorem c1_counterexample :
    ((handle_incoming defaultEnv (some (mkGetMsg "m1" ["A"] 0)) "1.3").1.bind
        getRespResultCount) = some 0 ∧
    (["A"] : List String).length = 1 := by
  constructor
  · rfl
  · rfl

/-- C1 (amended): the GetResp reply to a Get with msg_id `m` echoes `m` and
carries exactly one `RequestedPathResult` per `(key, value)` pair of
`get_params` — not per requested path — with `requested_path` and
`resolved_path` both the parameter key and `result_params` the single-entry
map keyed by the empty string; for `paths = ["Device.DeviceInfo.UpTime"]`,
`max_depth = 0` the aggregated map is exactly the uptime pair, so the reply
carries one result with `resolved_path = "Device.DeviceInfo.UpTime"` and
`result_params[""]` the platform uptime string. -/
theorem c1_get_response_per_param (env : Env) (ver m : String) (paths : List String)
    (d : Nat) :
    handle_incoming env (some (mkGetMsg m paths d)) ver
      = (build_get_resp m (get_params env paths d), ver) ∧
    (∀ ps : Params, build_get_resp m ps
      = some ⟨some ⟨m, 2⟩, some ⟨some (.response ⟨some (.getResp
          ⟨ps.map (fun kv => ⟨kv.1, 0, "", [⟨kv.1, [("", kv.2)]⟩]⟩)⟩)⟩)⟩⟩) ∧
    get_params env ["Device.DeviceInfo.UpTime"] 0
      = [("Device.DeviceInfo.UpTime", env.uptime)] := by
  refine ⟨rfl, fun ps => rfl, rfl⟩

/- ── C7 ──────────────────────────────────────────────────────────────────── -/

/-- A decoded inbound message that makes `handle_incoming` write the
negotiated-version cell: a well-formed `GetSupportedProtoResp` with a
Response body of the same type. -/
def isVersionStore (p : Payload) : Bool :=
  match p with
  | some ⟨some hd, some ⟨some (.response ⟨some (.getSupportedProtoResp _)⟩)⟩⟩ =>
    MessageType.tryFrom hd.msg_type == some .getSupportedProtoResp
  | _ => false

theorem handle_incoming_ver_unchanged (env : Env) (ver : String) (p : Payload)
    (hp : isVersionStore p = false) : (handle_incoming env p ver).2 = ver := by
  match p with
  | none => rfl
  | some ⟨none, _⟩ => rfl
  | some ⟨some hd, none⟩ =>
    cases htf : MessageType.tryFrom hd.msg_type with
    | none => simp [handle_incoming, htf]
    | some t => simp [handle_incoming, htf]
  | some ⟨some hd, some body⟩ =>
    cases htf : MessageType.tryFrom hd.msg_type with
    | none => simp [handle_incoming, htf]
    | some t =>
      cases t with
      | get => simp [handle_incoming, htf]
      | set =>
        simp only [handle_incoming, htf]
        cases (set_params env (extract_set_updates body)).1 <;> simp
      | operate =>
        simp only [handle_incoming, htf]
        cases dm_operate env (extract_operate body).1 (extract_operate body).2.2 <;> simp
      | getSupportedProtoResp =>
        obtain ⟨mb⟩ := body
        cases mb with
        | none => simp [handle_incoming, htf, extract_supported_versions]
        | some b =>
          cases b with
          | request r => simp [handle_incoming, htf, extract_supported_versions]
          | error e => simp [handle_incoming, htf, extract_supported_versions]
          | response r =>
            obtain ⟨rt⟩ := r
            cases rt with
            | none => simp [handle_incoming, htf, extract_supported_versions]
            | some rt' =>
              cases rt' with
              | getSupportedProtoResp g =>
                exfalso
                simp only [isVersionStore, htf] at hp
                simp at hp
              | getResp g => simp [handle_incoming, htf, extract_supported_versions]
              | setResp s => simp [handle_incoming, htf, extract_supported_versions]
              | operateResp o => simp [handle_incoming, htf, extract_supported_versions]
              | notifyResp n => simp [handle_incoming, htf, extract_supported_versions]
      | error => simp [handle_incoming, htf]
      | getResp => simp [handle_incoming, htf]
      | notify => simp [handle_incoming, htf]
      | setResp => simp [handle_incoming, htf]
      | operateResp => simp [handle_incoming, htf]
      | add => simp [handle_incoming, htf]
      | addResp => simp [handle_incoming, htf]
      | delete => simp [handle_incoming, htf]
      | deleteResp => simp [handle_incoming, htf]
      | getSupportedDm => simp [handle_incoming, htf]
      | getSupportedDmResp => simp [handle_incoming, htf]
      | getInstances => simp [handle_incoming, htf]
      | getInstancesResp => simp [handle_incoming, htf]
      | notifyResp => simp [handle_incoming, htf]
      | getSupportedProto => simp [handle_incoming, htf]

/-- C7 counterexample: the claim says the cell "never reverts to 1.3", but a
second GetSupportedProtoResp listing "1.3" first does exactly that: after
processing `[GetSupportedProtoResp "1.4"]` the cell is "1.4", and after the
further `GetSupportedProtoResp "1.3, 1.4"` it is "1.3" again. -/
theorem c7_counterexample :
    cellAfter defaultEnv "1.3" [some (mkGsprMsg "m6" "1.4")] = "1.4" ∧
    cellAfter defaultEnv "1.3"
        [some (mkGsprMsg "m6" "1.4"), some (mkGsprMsg "m7" "1.3, 1.4")] = "1.3" := by
  constructor
  · rfl
  · rfl

/-- C7 (amended): the negotiated-version cell is written only by a well-formed
GetSupportedProtoResp; processing any sequence of messages that contains no
such store leaves the cell unchanged — so once set, it reverts to "1.3" only
if a later GetSupportedProtoResp lists "1.3" (or the default) first. -/
theorem c7_version_cell_stability (env : Env) (ver : String) (msgs : List Payload)
    (h : ∀ p ∈ msgs, isVersionStore p = false) :
    cellAfter env ver msgs = ver := by
  induction msgs generalizing ver with
  | nil => rfl
  | cons p ps ih =>
    have hstep := handle_incoming_ver_unchanged env ver p (h p (List.mem_cons_self _ _))
    show cellAfter env (handle_incoming env p ver).2 ps = ver
    rw [hstep]
    exact ih ver (fun q hq => h q (List.mem_cons_of_mem _ hq))

theorem c7_version_cell_stability_witness :
    cellAfter defaultEnv "1.4"
        [some (mkGetMsg "m1" ["Device.DeviceInfo.UpTime"] 0), none] = "1.4" :=
  c7_version_cell_stability defaultEnv "1.4"
    [some (mkGetMsg "m1" ["Device.DeviceInfo.UpTime"] 0), none] (by decide)

/- ── C2 ──────────────────────────────────────────────────────────────────── -/

/-- The reply is a Response or an Error body. -/
def isResponseOrError (m : Msg) : Bool :=
  match m.body with
  | some ⟨some (.response _)⟩ => true
  | some ⟨some (.error _)⟩ => true
  | _ => false

/-- C2: for every inbound message with a well-formed header and body whose
type is not NotifyResp (and not the GetSupportedProtoResp negotiation reply,
which triggers the Boot! Notify instead) — this covers Get, Set, Operate,
Add, Delete, GetInstances, GetSupportedDm and every other defined type the
agent does not handle — `handle_incoming` emits exactly one Response or Error
message whose `header.msg_id` equals the request's; for NotifyResp it emits
nothing. -/
theorem c2_request_response_id_echo (env : Env) (ver : String) (msg : Msg)
    (hd : Header) (hh : msg.header = some hd)
    (t : MessageType) (ht : MessageType.tryFrom hd.msg_type = some t)
    (b : Body) (hb : msg.body = some b) :
    (t ≠ .notifyResp ∧ t ≠ .getSupportedProtoResp →
      ∃ r, (handle_incoming env (some msg) ver).1 = some r ∧
        (∃ rh, r.header = some rh ∧ rh.msg_id = hd.msg_id) ∧
        isResponseOrError r = true) ∧
    (t = .notifyResp → (handle_incoming env (some msg) ver).1 = none) := by
  obtain ⟨mh, mb⟩ := msg
  simp only at hh hb
  subst hh
  subst hb
  cases t with
  | get =>
    refine ⟨fun _ => ?_, fun heq => by simp at heq⟩
    simp only [handle_incoming, ht]
    exact ⟨_, rfl, ⟨_, rfl, rfl⟩, rfl⟩
  | set =>
    refine ⟨fun _ => ?_, fun heq => by simp at heq⟩
    simp only [handle_incoming, ht]
    cases hs : (set_params env (extract_set_updates b)).1 with
    | ok a => exact ⟨_, rfl, ⟨_, rfl, rfl⟩, rfl⟩
    | error e => exact ⟨_, rfl, ⟨_, rfl, rfl⟩, rfl⟩
  | operate =>
    refine ⟨fun _ => ?_, fun heq => by simp at heq⟩
    simp only [handle_incoming, ht]
    cases ho : dm_operate env (extract_operate b).1 (extract_operate b).2.2 with
    | ok output => exact ⟨_, rfl, ⟨_, rfl, rfl⟩, rfl⟩
    | error e => exact ⟨_, rfl, ⟨_, rfl, rfl⟩, rfl⟩
  | notifyResp =>
    refine ⟨fun hne => absurd rfl hne.1, fun _ => ?_⟩
    simp [handle_incoming, ht]
  | getSupportedProtoResp =>
    refine ⟨fun hne => absurd rfl hne.2, fun heq => by simp at heq⟩
  | add =>
    refine ⟨fun _ => ?_, fun heq => by simp at heq⟩
    simp only [handle_incoming, ht]
    exact ⟨_, rfl, ⟨_, rfl, rfl⟩, rfl⟩
  | delete =>
    refine ⟨fun _ => ?_, fun heq => by simp at heq⟩
    simp only [handle_incoming, ht]
    exact ⟨_, rfl, ⟨_, rfl, rfl⟩, rfl⟩
  | getInstances =>
    refine ⟨fun _ => ?_, fun heq => by simp at heq⟩
    simp only [handle_incoming, ht]
    exact ⟨_, rfl, ⟨_, rfl, rfl⟩, rfl⟩
  | getSupportedDm =>
    refine ⟨fun _ => ?_, fun heq => by simp at heq⟩
    simp only [handle_incoming, ht]
    exact ⟨_, rfl, ⟨_, rfl, rfl⟩, rfl⟩
  | error =>
    refine ⟨fun _ => ?_, fun heq => by simp at heq⟩
    simp only [handle_incoming, ht]
    exact ⟨_, rfl, ⟨_, rfl, rfl⟩, rfl⟩
  | getResp =>
    refine ⟨fun _ => ?_, fun heq => by simp at heq⟩
    simp only [handle_incoming, ht]
    exact ⟨_, rfl, ⟨_, rfl, rfl⟩, rfl⟩
  | notify =>
    refine ⟨fun _ => ?_, fun heq => by simp at heq⟩
    simp only [handle_incoming, ht]
    exact ⟨_, rfl, ⟨_, rfl, rfl⟩, rfl⟩
  | setResp =>
    refine ⟨fun _ => ?_, fun heq => by simp at heq⟩
    simp only [handle_incoming, ht]
    exact ⟨_, rfl, ⟨_, rfl, rfl⟩, rfl⟩
  | operateResp =>
    refine ⟨fun _ => ?_, fun heq => by simp at heq⟩
    simp only [handle_incoming, ht]
    exact ⟨_, rfl, ⟨_, rfl, rfl⟩, rfl⟩
  | addResp =>
    refine ⟨fun _ => ?_, fun heq => by simp at heq⟩
    simp only [handle_incoming, ht]
    exact ⟨_, rfl, ⟨_, rfl, rfl⟩, rfl⟩
  | deleteResp =>
    refine ⟨fun _ => ?_, fun heq => by simp at heq⟩
    simp only [handle_incoming, ht]
    exact ⟨_, rfl, ⟨_, rfl, rfl⟩, rfl⟩
  | getSupportedDmResp =>
    refine ⟨fun _ => ?_, fun heq => by simp at heq⟩
    simp only [handle_incoming, ht]
    exact ⟨_, rfl, ⟨_, rfl, rfl⟩, rfl⟩
  | getInstancesResp =>
    refine ⟨fun _ => ?_, fun heq => by simp at heq⟩
    simp only [handle_incoming, ht]
    exact ⟨_, rfl, ⟨_, rfl, rfl⟩, rfl⟩
  | getSupportedProto =>
    refine ⟨fun _ => ?_, fun heq => by simp at heq⟩
    simp only [handle_incoming, ht]
    exact ⟨_, rfl, ⟨_, rfl, rfl⟩, rfl⟩

theorem c2_request_response_id_echo_witness :
    ∃ r, (handle_incoming defaultEnv
        (some (mkGetMsg "m1" ["Device.DeviceInfo.UpTime"] 0)) "1.3").1 = some r ∧
      (∃ rh, r.header = some rh ∧ rh.msg_id = "m1") ∧
      isResponseOrError r = true :=
  (c2_request_response_id_echo defaultEnv "1.3"
      (mkGetMsg "m1" ["Device.DeviceInfo.UpTime"] 0)
      ⟨"m1", 1⟩ rfl .get (by decide) _ rfl).1 (by decide)

/- ── C4 ──────────────────────────────────────────────────────────────────── -/

theorem startsWith_excl {A B : String} (hA : lpre A.data B.data = false)
    (hB : lpre B.data A.data = false) {k : String} (h : sStartsWith k A = true) :
    sStartsWith k B = false := by
  cases hc : sStartsWith k B with
  | false => rfl
  | true => exact (sStartsWith_incompat hA hB h hc).elim

/-- C4 counterexample: a `Device.WiFi.` path whose suffix matches no writable
WiFi parameter, and a `Device.X_OptimACS_Security.` path, both make the
dispatched SET handler return `Ok(())` — the unsatisfiable SET silently
succeeds (the WiFi handler only logs a warning; the Security handler is a
stub returning `Ok`), contradicting the claim that both fail. -/
theorem c4_counterexample :
    (dispatch_set defaultEnv "Device.WiFi.SSID.1.Foo" "x").1 = .ok () ∧
    (dispatch_set defaultEnv "Device.X_OptimACS_Security.Cert" "c").1 = .ok () :=
  ⟨rfl, rfl⟩

/-- C4 (amended): SETs on `Device.DeviceInfo.`, `Device.DHCPv4.` and
`Device.Hosts.` paths, and on paths matching no handler prefix, fail with a
distinct error; but a `Device.WiFi.` path whose suffix matches none of the
four writable WiFi parameters returns `Ok(())` (the unknown path is only
logged), and every `Device.X_OptimACS_Security.` SET returns `Ok(())`. -/
theorem c4_unsatisfiable_set_results (env : Env) (path value : String) :
    (sStartsWith path "Device.DeviceInfo." = true →
      (dispatch_set env path value).1 = .error "Device.DeviceInfo.* is read-only") ∧
    (sStartsWith path "Device.DHCPv4." = true →
      (dispatch_set env path value).1
        = .error "DHCPv4 static address modification not yet implemented on agent side") ∧
    (sStartsWith path "Device.Hosts." = true →
      (dispatch_set env path value).1
        = .error "Device.Hosts.Host.* modification not yet implemented on agent side") ∧
    (sStartsWith path "Device.DeviceInfo." = false → sStartsWith path "Device.WiFi." = false →
      sStartsWith path "Device.IP.Interface." = false →
      sStartsWith path "Device.DHCPv4." = false → sStartsWith path "Device.Hosts." = false →
      sStartsWith path "Device.X_OptimACS_Security." = false →
      (dispatch_set env path value).1 = .error ("read-only or unknown path: " ++ path)) ∧
    (sStartsWith path "Device.WiFi." = true →
      sEndsWith path ".SSID" = false → sEndsWith path ".KeyPassphrase" = false →
      sEndsWith path ".ModeEnabled" = false → sEndsWith path ".Channel" = false →
      (dispatch_set env path value).1 = .ok ()) ∧
    (sStartsWith path "Device.X_OptimACS_Security." = true →
      (dispatch_set env path value).1 = .ok ()) := by
  refine ⟨?_, ?_, ?_, ?_, ?_, ?_⟩
  · intro h
    simp [dispatch_set, h, device_info_set]
  · intro h
    have h1 := startsWith_excl (by decide) (by decide) h
      (B := "Device.DeviceInfo.")
    have h2 := startsWith_excl (by decide) (by decide) h (B := "Device.WiFi.")
    have h3 := startsWith_excl (by decide) (by decide) h (B := "Device.IP.Interface.")
    simp [dispatch_set, h, h1, h2, h3, dhcp_set]
  · intro h
    have h1 := startsWith_excl (by decide) (by decide) h
      (B := "Device.DeviceInfo.")
    have h2 := startsWith_excl (by decide) (by decide) h (B := "Device.WiFi.")
    have h3 := startsWith_excl (by decide) (by decide) h (B := "Device.IP.Interface.")
    have h4 := startsWith_excl (by decide) (by decide) h (B := "Device.DHCPv4.")
    simp [dispatch_set, h, h1, h2, h3, h4, hosts_set]
  · intro g1 g2 g3 g4 g5 g6
    simp [dispatch_set, g1, g2, g3, g4, g5, g6]
  · intro h e1 e2 e3 e4
    have h1 := startsWith_excl (by decide) (by decide) h
      (B := "Device.DeviceInfo.")
    simp [dispatch_set, h, h1, wifi_set, e1, e2, e3, e4]
  · intro h
    have h1 := startsWith_excl (by decide) (by decide) h
      (B := "Device.DeviceInfo.")
    have h2 := startsWith_excl (by decide) (by decide) h (B := "Device.WiFi.")
    have h3 := startsWith_excl (by decide) (by decide) h (B := "Device.IP.Interface.")
    have h4 := startsWith_excl (by decide) (by decide) h (B := "Device.DHCPv4.")
    have h5 := startsWith_excl (by decide) (by decide) h (B := "Device.Hosts.")
    simp [dispatch_set, h, h1, h2, h3, h4, h5, security_set]

theorem c4_unsatisfiable_set_results_witness :
    (dispatch_set defaultEnv "Device.DeviceInfo.HostName" "h").1
      = .error "Device.DeviceInfo.* is read-only" ∧
    (dispatch_set defaultEnv "Device.Hosts.Host.1.HostName" "h").1
      = .error "Device.Hosts.Host.* modification not yet implemented on agent side" ∧
    (dispatch_set defaultEnv "Foo.Bar" "v").1
      = .error ("read-only or unknown path: " ++ "Foo.Bar") :=
  ⟨(c4_unsatisfiable_set_results defaultEnv "Device.DeviceInfo.HostName" "h").1
      (by decide),
   (c4_unsatisfiable_set_results defaultEnv "Device.Hosts.Host.1.HostName" "h").2.2.1
      (by decide),
   (c4_unsatisfiable_set_results defaultEnv "Foo.Bar" "v").2.2.2.1
      (by decide) (by decide) (by decide) (by decide) (by decide) (by decide)⟩

/- ── C9 ──────────────────────────────────────────────────────────────────── -/

/-- C9: `set_params` processes the updates in order and stops at the first
handler failure, returning that handler's error string verbatim while the
UCI mutations already performed by earlier updates remain in the trace (no
rollback); when every update succeeds it returns `Ok`.  `handle_incoming`
turns a SET failure into `Error(7200, reason)` and on success builds a
SetResp with one `UpdatedObjectResult` per `obj_path`, each `OperSuccess`
with empty `updated_inst_results`. -/
theorem c9_set_first_failure (env : Env) :
    (∀ (pre : List (String × String)) (u : String × String)
        (post : List (String × String)) (e : String),
      (∀ x ∈ pre, (dispatch_set env x.1 x.2).1 = .ok ()) →
      (dispatch_set env u.1 u.2).1 = .error e →
      set_params env (pre ++ u :: post)
        = (.error e,
           (pre.flatMap (fun x => (dispatch_set env x.1 x.2).2))
             ++ (dispatch_set env u.1 u.2).2)) ∧
    (∀ updates : List (String × String),
      (∀ x ∈ updates, (dispatch_set env x.1 x.2).1 = .ok ()) →
      (set_params env updates).1 = .ok ()) ∧
    (∀ (ver m : String) (objs : List UpdateObj),
      ((set_params env (extract_set_updates
          ⟨some (.request ⟨some (.set ⟨objs⟩)⟩)⟩)).1 = .ok () →
        (handle_incoming env (some (mkSetMsg m objs)) ver).1
          = some (build_set_resp m (objs.map (fun o => o.obj_path)))) ∧
      (∀ e, (set_params env (extract_set_updates
          ⟨some (.request ⟨some (.set ⟨objs⟩)⟩)⟩)).1 = .error e →
        (handle_incoming env (some (mkSetMsg m objs)) ver).1
          = some (build_error m 7200 e))) ∧
    (∀ (m : String) (ps : List String),
      build_set_resp m ps
        = ⟨some ⟨m, 5⟩, some ⟨some (.response ⟨some (.setResp
            ⟨ps.map (fun p => ⟨p, some (.operSuccess [])⟩)⟩)⟩)⟩⟩) := by
  refine ⟨?_, ?_, ?_, fun m ps => rfl⟩
  · intro pre u post e hpre hu
    induction pre with
    | nil =>
      obtain ⟨up, uv⟩ := u
      simp only [List.nil_append, List.flatMap_nil, set_params]
      rcases hdu : dispatch_set env up uv with ⟨r, ops⟩
      rw [hdu] at hu
      simp only at hu
      subst hu
      simp
    | cons x pre ih =>
      obtain ⟨xp, xv⟩ := x
      have hx := hpre (xp, xv) (List.mem_cons_self _ _)
      simp only [List.cons_append, set_params]
      rcases hdx : dispatch_set env xp xv with ⟨r, ops⟩
      rw [hdx] at hx
      simp only at hx
      subst hx
      have halt : set_params env (pre.append (u :: post))
          = (.error e,
             (pre.flatMap (fun x => (dispatch_set env x.1 x.2).2))
               ++ (dispatch_set env u.1 u.2).2) :=
        ih (fun y hy => hpre y (List.mem_cons_of_mem _ hy))
      rw [halt]
      simp [List.flatMap_cons, hdx, List.append_assoc]
  · intro updates hall
    induction updates with
    | nil => rfl
    | cons x rest ih =>
      obtain ⟨xp, xv⟩ := x
      have hx := hall (xp, xv) (List.mem_cons_self _ _)
      simp only [set_params]
      rcases hdx : dispatch_set env xp xv with ⟨r, ops⟩
      rw [hdx] at hx
      simp only at hx
      subst hx
      exact ih (fun y hy => hall y (List.mem_cons_of_mem _ hy))
  · intro ver m objs
    constructor
    · intro hok
      have h4 : MessageType.tryFrom 4 = some .set := by decide
      simp only [handle_incoming, mkSetMsg, h4, hok]
      rfl
    · intro e herr
      have h4 : MessageType.tryFrom 4 = some .set := by decide
      simp [handle_incoming, mkSetMsg, h4, herr]

theorem c9_set_first_failure_witness :
    set_params defaultEnv
        [("Device.WiFi.SSID.1.SSID", "guest-net"), ("Device.Hosts.Host.1.HostName", "h")]
      = (.error "Device.Hosts.Host.* modification not yet implemented on agent side",
         [.uset "wireless.@wifi-iface[0].ssid" "guest-net", .ucommit "wireless"]) ∧
    (handle_incoming defaultEnv
        (some (mkSetMsg "m2" [⟨"Device.WiFi.SSID.1.", [⟨"SSID", "guest-net"⟩]⟩])) "1.3").1
      = some (build_set_resp "m2" ["Device.WiFi.SSID.1."]) := by
  constructor
  · exact (c9_set_first_failure defaultEnv).1
      [("Device.WiFi.SSID.1.SSID", "guest-net")]
      ("Device.Hosts.Host.1.HostName", "h") [] _
      (by intro x hx; simp at hx; subst hx; rfl) rfl
  · exact ((c9_set_first_failure defaultEnv).2.2.1 "1.3" "m2"
      [⟨"Device.WiFi.SSID.1.", [⟨"SSID", "guest-net"⟩]⟩]).1 rfl

/- ── C8 ──────────────────────────────────────────────────────────────────── -/

theorem U64_pos : 0 < U64 := by norm_num [U64]

/-- The id returned by the `i`-th call is `(next_seq + i) mod 2^64`. -/
theorem applyCalls_returns (s : SessionContext) (ps : List (List Nat))
    (hs : s.next_seq < U64) :
    (applyCalls s ps).1
      = (List.range ps.length).map (fun i => (s.next_seq + i) % U64) := by
  induction ps generalizing s with
  | nil => rfl
  | cons p rest ih =>
    have hnext : (s.next_sequence_id p).2.next_seq = (s.next_seq + 1) % U64 := rfl
    have hlt : (s.next_sequence_id p).2.next_seq < U64 := by
      rw [hnext]; exact Nat.mod_lt _ U64_pos
    have ihh := ih (s.next_sequence_id p).2 hlt
    show ((s.next_sequence_id p).1 :: (applyCalls (s.next_sequence_id p).2 rest).1) = _
    rw [ihh, hnext]
    have hret : (s.next_sequence_id p).1 = s.next_seq := rfl
    rw [hret, List.length_cons, List.range_succ_eq_map]
    simp only [List.map_cons, List.map_map]
    congr 1
    · rw [Nat.add_zero, Nat.mod_eq_of_lt hs]
    · apply List.map_congr_left
      intro i _
      simp only [Function.comp]
      rw [Nat.mod_add_mod]
      congr 1
      omega

/-- C8 counterexample: drawing `2^64` sequence ids from a fresh
`SessionContext` wraps the `u64` counter, so the returned ids are not
strictly increasing over every sequence of calls: the id of call `2^64 - 1`
is `2^64 - 1` but the id of call `2^64` is `0`. -/
theorem c8_counterexample :
    ¬ List.Chain' (· < ·)
      ((applyCalls (SessionContext.new 0) (List.replicate U64 [])).1) := by
  intro hchain
  have hU2 : 2 ≤ U64 := by norm_num [U64]
  have hret := applyCalls_returns (SessionContext.new 0) (List.replicate U64 [])
    (by show 1 < U64; omega)
  rw [List.length_replicate] at hret
  have hsplit : List.range U64 = (List.range (U64 - 2) ++ [U64 - 2]) ++ [U64 - 1] := by
    have h1 : U64 - 1 + 1 = U64 := by omega
    have h2 : U64 - 2 + 1 = U64 - 1 := by omega
    rw [← h1, List.range_succ, h1, ← h2, List.range_succ, h2]
  rw [hret, hsplit] at hchain
  simp only [List.map_append, List.map_cons, List.map_nil] at hchain
  rw [List.chain'_append] at hchain
  have hlast := hchain.2.2
  have hx : (1 + (U64 - 2)) % U64 < (1 + (U64 - 1)) % U64 := by
    apply hlast
    · rw [List.getLast?_concat]
      rfl
    · rfl
  have e1 : 1 + (U64 - 2) = U64 - 1 := by omega
  have e2 : 1 + (U64 - 1) = U64 := by omega
  rw [e1, e2, Nat.mod_self, Nat.mod_eq_of_lt (by omega)] at hx
  omega

/-- IsSuffix is preserved by appending on the right. -/
theorem isSuffix_append_right {α : Type} {l m t : List α} (h : List.IsSuffix l m) :
    List.IsSuffix (l ++ t) (m ++ t) := by
  obtain ⟨u, hu⟩ := h
  exact ⟨u, by rw [← hu, List.append_assoc]⟩

/-- Buffer invariant along any call sequence: the length follows
`min (old + calls) 256` and the final buffer is a suffix of the pushed
history (front eviction keeps the most recent entries). -/
theorem applyCalls_buf (s : SessionContext) (ps : List (List Nat))
    (hbuf : s.retransmit_buf.length ≤ 256) :
    (applyCalls s ps).2.retransmit_buf.length
      = min (s.retransmit_buf.length + ps.length) 256 ∧
    List.IsSuffix (applyCalls s ps).2.retransmit_buf
      (s.retransmit_buf ++ List.zip (applyCalls s ps).1 ps) := by
  induction ps generalizing s with
  | nil =>
    refine ⟨by simp [applyCalls]; omega, by simp [applyCalls]⟩
  | cons p rest ih =>
    have hlen1 : (s.next_sequence_id p).2.retransmit_buf.length
        = min (s.retransmit_buf.length + 1) 256 := by
      show (if (s.retransmit_buf ++ [(s.next_seq, p)]).length > 256
            then (s.retransmit_buf ++ [(s.next_seq, p)]).tail
            else s.retransmit_buf ++ [(s.next_seq, p)]).length
          = min (s.retransmit_buf.length + 1) 256
      by_cases hc : (s.retransmit_buf ++ [(s.next_seq, p)]).length > 256
      · rw [if_pos hc]
        simp only [List.length_tail, List.length_append, List.length_singleton] at hc ⊢
        omega
      · rw [if_neg hc]
        simp only [List.length_append, List.length_singleton] at hc ⊢
        omega
    have hsub1 : List.IsSuffix (s.next_sequence_id p).2.retransmit_buf
        (s.retransmit_buf ++ [(s.next_seq, p)]) := by
      show List.IsSuffix
        (if (s.retransmit_buf ++ [(s.next_seq, p)]).length > 256
         then (s.retransmit_buf ++ [(s.next_seq, p)]).tail
         else s.retransmit_buf ++ [(s.next_seq, p)]) _
      by_cases hc : (s.retransmit_buf ++ [(s.next_seq, p)]).length > 256
      · rw [if_pos hc]
        exact List.tail_suffix _
      · rw [if_neg hc]
    have hb1 : (s.next_sequence_id p).2.retransmit_buf.length ≤ 256 := by
      rw [hlen1]; omega
    obtain ⟨ihlen, ihsub⟩ := ih (s.next_sequence_id p).2 hb1
    constructor
    · show (applyCalls (s.next_sequence_id p).2 rest).2.retransmit_buf.length = _
      rw [ihlen, hlen1]
      simp only [List.length_cons]
      omega
    · show List.IsSuffix (applyCalls (s.next_sequence_id p).2 rest).2.retransmit_buf
        (s.retransmit_buf
          ++ List.zip ((s.next_sequence_id p).1 :: (applyCalls (s.next_sequence_id p).2 rest).1)
               (p :: rest))
      have hret : (s.next_sequence_id p).1 = s.next_seq := rfl
      rw [hret]
      simp only [List.zip_cons_cons]
      have hchain : List.IsSuffix ((s.next_sequence_id p).2.retransmit_buf
          ++ List.zip (applyCalls (s.next_sequence_id p).2 rest).1 rest)
          ((s.retransmit_buf ++ [(s.next_seq, p)])
            ++ List.zip (applyCalls (s.next_sequence_id p).2 rest).1 rest) :=
        isSuffix_append_right hsub1
      have heq : (s.retransmit_buf ++ [(s.next_seq, p)])
          ++ List.zip (applyCalls (s.next_sequence_id p).2 rest).1 rest
          = s.retransmit_buf
            ++ ((s.next_seq, p) :: List.zip (applyCalls (s.next_sequence_id p).2 rest).1 rest) := by
        rw [List.append_assoc, List.singleton_append]
      rw [heq] at hchain
      exact ihsub.trans hchain

/-- C8 (amended): from a fresh `SessionContext`, any sequence of fewer than
`2^64` calls of `next_sequence_id` returns the strictly increasing ids
`1, 2, …, n` (the `u64` counter wraps after `2^64` draws), and after every
operation the retransmit buffer holds `min n 256` entries — never more than
256 — and is a suffix of the pushed history (the oldest entries are the ones
evicted). -/
theorem c8_session_counter_and_buffer (sid : Nat) (ps : List (List Nat)) :
    (ps.length < U64 →
      (applyCalls (SessionContext.new sid) ps).1
        = (List.range ps.length).map (fun i => i + 1) ∧
      List.Chain' (· < ·) (applyCalls (SessionContext.new sid) ps).1) ∧
    (applyCalls (SessionContext.new sid) ps).2.retransmit_buf.length = min ps.length 256 ∧
    (applyCalls (SessionContext.new sid) ps).2.retransmit_buf.length ≤ 256 ∧
    List.IsSuffix (applyCalls (SessionContext.new sid) ps).2.retransmit_buf
      (List.zip (applyCalls (SessionContext.new sid) ps).1 ps) := by
  have hn1 : (SessionContext.new sid).next_seq = 1 := rfl
  have hb0 : (SessionContext.new sid).retransmit_buf = [] := rfl
  have hbuf := applyCalls_buf (SessionContext.new sid) ps (by rw [hb0]; simp)
  refine ⟨?_, ?_, ?_, ?_⟩
  · intro hlt
    have hret := applyCalls_returns (SessionContext.new sid) ps
      (by rw [hn1]; norm_num [U64])
    rw [hn1] at hret
    have hmap : (List.range ps.length).map (fun i => (1 + i) % U64)
        = (List.range ps.length).map (fun i => i + 1) := by
      apply List.map_congr_left
      intro i hi
      rw [List.mem_range] at hi
      rw [Nat.mod_eq_of_lt (by omega)]
      omega
    rw [hret, hmap]
    refine ⟨rfl, ?_⟩
    rw [List.chain'_iff_get]
    intro i hi
    simp only [List.length_map, List.length_range] at hi
    simp only [List.get_eq_getElem, List.getElem_map, List.getElem_range]
    omega
  · rw [hbuf.1, hb0]
    simp
  · rw [hbuf.1]
    omega
  · have := hbuf.2
    rw [hb0] at this
    simpa using this

theorem c8_session_counter_and_buffer_witness :
    (applyCalls (SessionContext.new 0) [[], []]).1 = [1, 2] ∧
    List.Chain' (· < ·) (applyCalls (SessionContext.new 0) [[], []]).1 ∧
    (applyCalls (SessionContext.new 0) [[], []]).2.retransmit_buf.length = 2 := by
  have h := c8_session_counter_and_buffer 0 [[], []]
  have h1 := h.1 (by norm_num [U64])
  refine ⟨by rw [h1.1]; rfl, h1.2, by rw [h.2.1]; rfl⟩

/- ── C3: per-handler structure lemmas ────────────────────────────────────── -/

/-- Every pair `firmware::get` can produce. -/
def firmwareAll (env : Env) : Params :=
  [("Device.X_OptimACS_Firmware.AvailableVersion", env.fwVersion)]

theorem device_info_get_sublist (env : Env) (p : String) :
    List.Sublist (device_info_get env p) (deviceInfoAll env) := by
  unfold device_info_get
  dsimp only
  split_ifs <;>
    first
      | exact List.Sublist.refl _
      | exact List.nil_sublist _
      | exact List.singleton_sublist.mpr (by simp [deviceInfoAll])

theorem wifi_get_sublist (env : Env) (p : String) :
    List.Sublist (wifi_get env p) (wifiAll env) := by
  unfold wifi_get wifiAll
  refine List.Sublist.append (List.Sublist.append ?_ ?_) ?_ <;>
    (split_ifs <;> first | exact List.Sublist.refl _ | exact List.nil_sublist _)

theorem ip_get_sublist (env : Env) (p : String) :
    List.Sublist (ip_get env p) (ipAll env) := by
  unfold ip_get
  split_ifs
  · exact List.Sublist.refl _
  · exact List.nil_sublist _

theorem firmware_get_sublist (env : Env) (p : String) :
    List.Sublist (firmware_get env p) (firmwareAll env) := by
  unfold firmware_get firmwareAll
  split_ifs
  · exact List.Sublist.refl _
  · exact List.nil_sublist _

theorem deviceInfoAll_distinct (env : Env) : distinctKeys (deviceInfoAll env) := by
  simp only [distinctKeys, keysOf, deviceInfoAll, List.map_cons, List.map_nil]
  decide

theorem wifiAll_distinct (env : Env) : distinctKeys (wifiAll env) := by
  unfold wifiAll wifiSsidGroup wifiApGroup wifiRadioGroup
  by_cases h : uci_get env "wireless.@wifi-iface[0].ssid" ≠ ""
  · rw [if_pos h]
    simp only [distinctKeys, keysOf, List.map_append, List.map_cons, List.map_nil,
      List.cons_append, List.nil_append]
    decide
  · rw [if_neg h]
    simp only [distinctKeys, keysOf, List.map_append, List.map_cons, List.map_nil,
      List.cons_append, List.nil_append]
    decide

theorem ipAll_distinct (env : Env) : distinctKeys (ipAll env) := by
  simp only [distinctKeys, keysOf, ipAll, List.map_cons, List.map_nil]
  decide

theorem firmwareAll_distinct (env : Env) : distinctKeys (firmwareAll env) := by
  simp only [distinctKeys, keysOf, firmwareAll, List.map_cons, List.map_nil]
  decide

theorem idxKey_ne_of_lt {P : String} {n m : Nat} {s t : String} (h : n < m) :
    idxKey P n s ≠ idxKey P m t := fun he => by
  have := (idxKey_inj he).1
  omega

theorem idxKey_ne_suffix {P : String} {n m : Nat} {s t : String} (hst : s ≠ t) :
    idxKey P n s ≠ idxKey P m t := fun he => hst (idxKey_inj he).2

theorem dhcp_entries_key_shape (allLines lines : List String) (idx : Nat) :
    ∀ k ∈ keysOf (dhcp_entries allLines lines idx),
      ∃ n, idx ≤ n ∧
        (k = idxKey "Device.DHCPv4.Server.Pool.1.StaticAddress." n "Chaddr"
          ∨ k = idxKey "Device.DHCPv4.Server.Pool.1.StaticAddress." n "Yiaddr") := by
  induction lines generalizing idx with
  | nil => intro k hk; simp [dhcp_entries, keysOf] at hk
  | cons line rest ih =>
    intro k hk
    by_cases hc : (sContains line "host." && sContains line ".mac=") = true
    · rw [dhcp_entries, if_pos hc] at hk
      simp only [keysOf, List.map_cons, List.mem_cons] at hk
      rcases hk with rfl | rfl | hk
      · exact ⟨idx, Nat.le_refl _, Or.inl rfl⟩
      · exact ⟨idx, Nat.le_refl _, Or.inr rfl⟩
      · obtain ⟨n, hn, hk'⟩ := ih (idx + 1) k (by simpa [keysOf] using hk)
        exact ⟨n, by omega, hk'⟩
    · rw [dhcp_entries, if_neg hc] at hk
      exact ih idx k hk

theorem dhcp_entries_distinct (allLines lines : List String) (idx : Nat) :
    distinctKeys (dhcp_entries allLines lines idx) := by
  induction lines generalizing idx with
  | nil => simp [dhcp_entries, distinctKeys, keysOf]
  | cons line rest ih =>
    by_cases hc : (sContains line "host." && sContains line ".mac=") = true
    · rw [dhcp_entries, if_pos hc]
      simp only [distinctKeys, keysOf, List.map_cons, List.nodup_cons, List.mem_cons]
      refine ⟨?_, ?_, ih (idx + 1)⟩
      · rintro (he | hmem)
        · exact idxKey_ne_suffix (by decide) he
        · obtain ⟨n, hn, hk⟩ := dhcp_entries_key_shape allLines rest (idx + 1) _ hmem
          rcases hk with he' | he'
          · exact absurd (idxKey_inj he').1 (by omega)
          · exact idxKey_ne_suffix (by decide) he'
      · intro hmem
        obtain ⟨n, hn, hk⟩ := dhcp_entries_key_shape allLines rest (idx + 1) _ hmem
        rcases hk with he' | he'
        · exact idxKey_ne_suffix (by decide) he'
        · exact absurd (idxKey_inj he').1 (by omega)
    · rw [dhcp_entries, if_neg hc]
      exact ih idx

theorem hosts_entries_key_shape (lines : List String) (idx : Nat) :
    ∀ k ∈ keysOf (hosts_entries lines idx),
      ∃ n, idx ≤ n ∧
        (k = idxKey "Device.Hosts.Host." n "IPAddress"
          ∨ k = idxKey "Device.Hosts.Host." n "HostName") := by
  induction lines generalizing idx with
  | nil => intro k hk; simp [hosts_entries, keysOf] at hk
  | cons rawLine rest ih =>
    intro k hk
    rw [hosts_entries] at hk
    dsimp only at hk
    by_cases hc1 : sTrim rawLine = "" ∨ sStartsWith (sTrim rawLine) "#" = true
    · rw [if_pos hc1] at hk
      exact ih idx k hk
    · rw [if_neg hc1] at hk
      by_cases hc2 : ((sSplitWhitespace (sTrim rawLine))[0]?).getD "" ≠ ""
          ∧ ((sSplitWhitespace (sTrim rawLine))[1]?).getD "" ≠ ""
      · rw [if_pos hc2] at hk
        simp only [keysOf, List.map_cons, List.mem_cons] at hk
        rcases hk with rfl | rfl | hk
        · exact ⟨idx, Nat.le_refl _, Or.inl rfl⟩
        · exact ⟨idx, Nat.le_refl _, Or.inr rfl⟩
        · obtain ⟨n, hn, hk'⟩ := ih (idx + 1) k (by simpa [keysOf] using hk)
          exact ⟨n, by omega, hk'⟩
      · rw [if_neg hc2] at hk
        exact ih idx k hk

theorem hosts_entries_distinct (lines : List String) (idx : Nat) :
    distinctKeys (hosts_entries lines idx) := by
  induction lines generalizing idx with
  | nil => simp [hosts_entries, distinctKeys, keysOf]
  | cons rawLine rest ih =>
    rw [hosts_entries]
    dsimp only
    by_cases hc1 : sTrim rawLine = "" ∨ sStartsWith (sTrim rawLine) "#" = true
    · rw [if_pos hc1]
      exact ih idx
    · rw [if_neg hc1]
      by_cases hc2 : ((sSplitWhitespace (sTrim rawLine))[0]?).getD "" ≠ ""
          ∧ ((sSplitWhitespace (sTrim rawLine))[1]?).getD "" ≠ ""
      · rw [if_pos hc2]
        simp only [distinctKeys, keysOf, List.map_cons, List.nodup_cons, List.mem_cons]
        refine ⟨?_, ?_, ih (idx + 1)⟩
        · rintro (he | hmem)
          · exact idxKey_ne_suffix (by decide) he
          · obtain ⟨n, hn, hk⟩ := hosts_entries_key_shape rest (idx + 1) _ hmem
            rcases hk with he' | he'
            · exact absurd (idxKey_inj he').1 (by omega)
            · exact idxKey_ne_suffix (by decide) he'
        · intro hmem
          obtain ⟨n, hn, hk⟩ := hosts_entries_key_shape rest (idx + 1) _ hmem
          rcases hk with he' | he'
          · exact idxKey_ne_suffix (by decide) he'
          · exact absurd (idxKey_inj he').1 (by omega)
      · rw [if_neg hc2]
        exact ih idx

theorem cam_entries_key_shape (cams : List (String × String)) (i : Nat) :
    ∀ k ∈ keysOf (cam_entries cams i),
      ∃ n, i + 1 ≤ n ∧
        (k = idxKey "Device.X_OptimACS_Camera." n "IPAddress"
          ∨ k = idxKey "Device.X_OptimACS_Camera." n "MACAddress") := by
  induction cams generalizing i with
  | nil => intro k hk; simp [cam_entries, keysOf] at hk
  | cons c rest ih =>
    intro k hk
    rw [cam_entries] at hk
    simp only [keysOf, List.map_cons, List.mem_cons] at hk
    rcases hk with rfl | rfl | hk
    · exact ⟨i + 1, Nat.le_refl _, Or.inl rfl⟩
    · exact ⟨i + 1, Nat.le_refl _, Or.inr rfl⟩
    · obtain ⟨n, hn, hk'⟩ := ih (i + 1) k (by simpa [keysOf] using hk)
      exact ⟨n, by omega, hk'⟩

theorem cam_entries_distinct (cams : List (String × String)) (i : Nat) :
    distinctKeys (cam_entries cams i) := by
  induction cams generalizing i with
  | nil => simp [cam_entries, distinctKeys, keysOf]
  | cons c rest ih =>
    rw [cam_entries]
    simp only [distinctKeys, keysOf, List.map_cons, List.nodup_cons, List.mem_cons]
    refine ⟨?_, ?_, ih (i + 1)⟩
    · rintro (he | hmem)
      · exact idxKey_ne_suffix (by decide) he
      · obtain ⟨n, hn, hk⟩ := cam_entries_key_shape rest (i + 1) _ hmem
        rcases hk with he' | he'
        · exact absurd (idxKey_inj he').1 (by omega)
        · exact idxKey_ne_suffix (by decide) he'
    · intro hmem
      obtain ⟨n, hn, hk⟩ := cam_entries_key_shape rest (i + 1) _ hmem
      rcases hk with he' | he'
      · exact idxKey_ne_suffix (by decide) he'
      · exact absurd (idxKey_inj he').1 (by omega)

theorem dhcp_get_distinct (env : Env) (p : String) : distinctKeys (dhcp_get env p) :=
  dhcp_entries_distinct _ _ 1

theorem hosts_get_distinct (env : Env) (p : String) : distinctKeys (hosts_get env p) :=
  hosts_entries_distinct _ 1

theorem cameras_get_distinct (env : Env) (p : String) : distinctKeys (cameras_get env p) := by
  unfold cameras_get
  cases env.camHttpErr with
  | some e => simp [distinctKeys, keysOf]
  | none => exact cam_entries_distinct env.cameras 0

theorem dispatch_get_distinct (env : Env) (p : String) :
    distinctKeys (dispatch_get env p) := by
  unfold dispatch_get
  split_ifs
  · exact distinctKeys_sublist (device_info_get_sublist env p) (deviceInfoAll_distinct env)
  · exact distinctKeys_sublist (wifi_get_sublist env p) (wifiAll_distinct env)
  · exact distinctKeys_sublist (ip_get_sublist env p) (ipAll_distinct env)
  · exact dhcp_get_distinct env p
  · exact hosts_get_distinct env p
  · exact cameras_get_distinct env p
  · exact distinctKeys_sublist (firmware_get_sublist env p) (firmwareAll_distinct env)
  · simp [distinctKeys, keysOf]

theorem lpre_trans {a b c : List Char} (h1 : lpre a b = true) (h2 : lpre b c = true) :
    lpre a c = true := by
  induction a generalizing b c with
  | nil => rfl
  | cons x xs ih =>
    cases b with
    | nil => simp [lpre] at h1
    | cons y ys =>
      cases c with
      | nil => simp [lpre] at h2
      | cons z zs =>
        simp only [lpre] at h1 h2 ⊢
        by_cases hxy : x = y
        · by_cases hyz : y = z
          · simp only [if_pos hxy] at h1
            simp only [if_pos hyz] at h2
            rw [if_pos (hxy.trans hyz)]
            exact ih h1 h2
          · simp [if_neg hyz] at h2
        · simp [if_neg hxy] at h1

theorem deviceInfoAll_pfx {env : Env} {k v : String} (h : (k, v) ∈ deviceInfoAll env) :
    sStartsWith k "Device.DeviceInfo." = true := by
  simp only [deviceInfoAll, List.mem_cons, List.not_mem_nil, or_false, Prod.mk.injEq] at h
  rcases h with ⟨rfl, -⟩ | ⟨rfl, -⟩ | ⟨rfl, -⟩ | ⟨rfl, -⟩ | ⟨rfl, -⟩ | ⟨rfl, -⟩ | ⟨rfl, -⟩ <;>
    decide

theorem wifiAll_pfx {env : Env} {k v : String} (h : (k, v) ∈ wifiAll env) :
    sStartsWith k "Device.WiFi." = true := by
  unfold wifiAll wifiSsidGroup wifiApGroup wifiRadioGroup at h
  by_cases hs : uci_get env "wireless.@wifi-iface[0].ssid" ≠ ""
  · rw [if_pos hs] at h
    simp only [List.cons_append, List.nil_append, List.mem_cons, List.not_mem_nil, or_false,
      Prod.mk.injEq] at h
    rcases h with ⟨rfl, -⟩ | ⟨rfl, -⟩ | ⟨rfl, -⟩ | ⟨rfl, -⟩ <;> decide
  · rw [if_neg hs] at h
    simp only [List.cons_append, List.nil_append, List.mem_cons, List.not_mem_nil, or_false,
      Prod.mk.injEq] at h
    rcases h with ⟨rfl, -⟩ | ⟨rfl, -⟩ | ⟨rfl, -⟩ <;> decide

theorem ipAll_pfx {env : Env} {k v : String} (h : (k, v) ∈ ipAll env) :
    sStartsWith k "Device.IP.Interface." = true := by
  simp only [ipAll, List.mem_cons, List.not_mem_nil, or_false, Prod.mk.injEq] at h
  rcases h with ⟨rfl, -⟩ | ⟨rfl, -⟩ | ⟨rfl, -⟩ <;> decide

theorem firmwareAll_pfx {env : Env} {k v : String} (h : (k, v) ∈ firmwareAll env) :
    sStartsWith k "Device.X_OptimACS_Firmware." = true := by
  simp only [firmwareAll, List.mem_cons, List.not_mem_nil, or_false, Prod.mk.injEq] at h
  rcases h with ⟨rfl, -⟩
  decide

theorem idxKey_pfx_of_lit {A P : String} (hAP : lpre A.data P.data = true) {n : Nat}
    {s : String} : sStartsWith (idxKey P n s) A = true :=
  lpre_trans hAP (idxKey_startsWith P n s)

theorem dhcp_get_pfx {env : Env} {p k v : String} (h : (k, v) ∈ dhcp_get env p) :
    sStartsWith k "Device.DHCPv4." = true := by
  obtain ⟨n, -, hk⟩ := dhcp_entries_key_shape (sLines env.uciShowDhcp)
    (sLines env.uciShowDhcp) 1 k (by simpa [keysOf] using List.mem_map_of_mem Prod.fst h)
  rcases hk with rfl | rfl <;> exact idxKey_pfx_of_lit (by decide)

theorem hosts_get_pfx {env : Env} {p k v : String} (h : (k, v) ∈ hosts_get env p) :
    sStartsWith k "Device.Hosts." = true := by
  obtain ⟨n, -, hk⟩ := hosts_entries_key_shape (sLines env.etcHosts) 1 k
    (by simpa [keysOf] using List.mem_map_of_mem Prod.fst h)
  rcases hk with rfl | rfl <;> exact idxKey_pfx_of_lit (by decide)

theorem cameras_get_pfx {env : Env} {p k v : String} (h : (k, v) ∈ cameras_get env p) :
    sStartsWith k "Device.X_OptimACS_Camera." = true := by
  unfold cameras_get at h
  cases hcam : env.camHttpErr with
  | some e => rw [hcam] at h; simp at h
  | none =>
    rw [hcam] at h
    obtain ⟨n, -, hk⟩ := cam_entries_key_shape env.cameras 0 k
      (by simpa [keysOf] using List.mem_map_of_mem Prod.fst h)
    rcases hk with rfl | rfl <;> exact idxKey_pfx_of_lit (by decide)

theorem dispatch_get_mem {env : Env} {p k v : String} (h : (k, v) ∈ dispatch_get env p) :
    ((k, v) ∈ deviceInfoAll env ∧ sStartsWith k "Device.DeviceInfo." = true)
    ∨ ((k, v) ∈ wifiAll env ∧ sStartsWith k "Device.WiFi." = true)
    ∨ ((k, v) ∈ ipAll env ∧ sStartsWith k "Device.IP.Interface." = true)
    ∨ ((k, v) ∈ dhcp_get env p ∧ sStartsWith k "Device.DHCPv4." = true)
    ∨ ((k, v) ∈ hosts_get env p ∧ sStartsWith k "Device.Hosts." = true)
    ∨ ((k, v) ∈ cameras_get env p ∧ sStartsWith k "Device.X_OptimACS_Camera." = true)
    ∨ ((k, v) ∈ firmwareAll env ∧ sStartsWith k "Device.X_OptimACS_Firmware." = true) := by
  unfold dispatch_get at h
  split_ifs at h
  · exact Or.inl ⟨(device_info_get_sublist env p).subset h,
      deviceInfoAll_pfx ((device_info_get_sublist env p).subset h)⟩
  · exact Or.inr (Or.inl ⟨(wifi_get_sublist env p).subset h,
      wifiAll_pfx ((wifi_get_sublist env p).subset h)⟩)
  · exact Or.inr (Or.inr (Or.inl ⟨(ip_get_sublist env p).subset h,
      ipAll_pfx ((ip_get_sublist env p).subset h)⟩))
  · exact Or.inr (Or.inr (Or.inr (Or.inl ⟨h, dhcp_get_pfx h⟩)))
  · exact Or.inr (Or.inr (Or.inr (Or.inr (Or.inl ⟨h, hosts_get_pfx h⟩))))
  · exact Or.inr (Or.inr (Or.inr (Or.inr (Or.inr (Or.inl ⟨h, cameras_get_pfx h⟩)))))
  · exact Or.inr (Or.inr (Or.inr (Or.inr (Or.inr (Or.inr
      ⟨(firmware_get_sublist env p).subset h,
       firmwareAll_pfx ((firmware_get_sublist env p).subset h)⟩)))))
  · simp at h

/-- Across any two requested paths, the aggregated data model assigns each
key a single value: the handlers are deterministic over the environment and
their key spaces are prefix-disjoint. -/
theorem dispatch_get_functional (env : Env) (p q k v w : String)
    (h : (k, v) ∈ dispatch_get env p) (h' : (k, w) ∈ dispatch_get env q) : v = w := by
  have hdq : dhcp_get env q = dhcp_get env p := rfl
  have hhq : hosts_get env q = hosts_get env p := rfl
  have hcq : cameras_get env q = cameras_get env p := rfl
  rcases dispatch_get_mem h with
    ⟨hm, hp⟩ | ⟨hm, hp⟩ | ⟨hm, hp⟩ | ⟨hm, hp⟩ | ⟨hm, hp⟩ | ⟨hm, hp⟩ | ⟨hm, hp⟩ <;>
  rcases dispatch_get_mem h' with
    ⟨hm', hp'⟩ | ⟨hm', hp'⟩ | ⟨hm', hp'⟩ | ⟨hm', hp'⟩ | ⟨hm', hp'⟩ | ⟨hm', hp'⟩ | ⟨hm', hp'⟩ <;>
  [skip; skip; skip; skip; skip; skip; skip; skip; skip; skip; skip; skip; skip; skip;
   skip; skip; skip; skip; skip; skip; skip; skip; skip; skip; skip; skip; skip; skip;
   skip; skip; skip; skip; skip; skip; skip; skip; skip; skip; skip; skip; skip; skip;
   skip; skip; skip; skip; skip; skip; skip] <;>
  first
    | exact (sStartsWith_incompat (by decide) (by decide) hp hp').elim
    | exact distinctKeys_value_eq (deviceInfoAll_distinct env) hm hm'
    | exact distinctKeys_value_eq (wifiAll_distinct env) hm hm'
    | exact distinctKeys_value_eq (ipAll_distinct env) hm hm'
    | exact distinctKeys_value_eq (dhcp_get_distinct env p) hm (hdq ▸ hm')
    | exact distinctKeys_value_eq (hosts_get_distinct env p) hm (hhq ▸ hm')
    | exact distinctKeys_value_eq (cameras_get_distinct env p) hm (hcq ▸ hm')
    | exact distinctKeys_value_eq (firmwareAll_distinct env) hm hm'

/-- The contribution of one requested path: the handler result, depth-filtered
when `max_depth` is non-zero (`get_params`'s loop body). -/
def depthFilt (env : Env) (p : String) (d : Nat) : Params :=
  if d = 0 then dispatch_get env p
  else (dispatch_get env p).filter (fun kv => dotCount kv.1 ≤ dotCount p + d)

theorem get_params_lookup (env : Env) (d : Nat) (k : String) (paths : List String) :
    plookup k (get_params env paths d)
      = paths.foldl (fun o p =>
          match plookup k (depthFilt env p d) with
          | some w => some w
          | none => o) none := by
  suffices h : ∀ (ps : List String) (acc : Params),
      plookup k (ps.foldl (fun result path =>
        let fromHandler := dispatch_get env path
        if d = 0 then pextend result fromHandler
        else
          let base_depth := dotCount path
          pextend result
            (fromHandler.filter (fun kv => dotCount kv.1 ≤ base_depth + d))) acc)
      = ps.foldl (fun o p =>
          match plookup k (depthFilt env p d) with
          | some w => some w
          | none => o) (plookup k acc) by
    have := h paths []
    simpa [get_params] using this
  intro ps
  induction ps with
  | nil => intro acc; rfl
  | cons p rest ih =>
    intro acc
    simp only [List.foldl_cons]
    rw [ih]
    congr 1
    by_cases hd : d = 0
    · dsimp only
      rw [if_pos hd]
      rw [plookup_pextend k acc (dispatch_get env p) (dispatch_get_distinct env p)]
      simp [depthFilt, hd]
    · dsimp only
      rw [if_neg hd]
      rw [plookup_pextend k acc _
        (distinctKeys_sublist (List.filter_sublist _) (dispatch_get_distinct env p))]
      simp [depthFilt, hd]

theorem foldl_match_init (f : String → Option String) (ps : List String)
    (o₀ : Option String) (h : ∀ p ∈ ps, f p = none) :
    ps.foldl (fun o p => match f p with | some w => some w | none => o) o₀ = o₀ := by
  induction ps generalizing o₀ with
  | nil => rfl
  | cons p rest ih =>
    simp only [List.foldl_cons, h p (List.mem_cons_self _ _)]
    exact ih o₀ (fun q hq => h q (List.mem_cons_of_mem _ hq))

theorem foldl_match_some_cases (f : String → Option String) (v : String) :
    ∀ (ps : List String) (o₀ : Option String),
      ps.foldl (fun o p => match f p with | some w => some w | none => o) o₀ = some v →
      (∃ p ∈ ps, f p = some v) ∨ (o₀ = some v ∧ ∀ p ∈ ps, f p = none) := by
  intro ps
  induction ps with
  | nil =>
    intro o₀ h
    exact Or.inr ⟨h, by simp⟩
  | cons p rest ih =>
    intro o₀ h
    simp only [List.foldl_cons] at h
    cases hfp : f p with
    | some w =>
      simp only [hfp] at h
      rcases ih (some w) h with ⟨q, hq, hfq⟩ | ⟨hw, -⟩
      · exact Or.inl ⟨q, List.mem_cons_of_mem _ hq, hfq⟩
      · exact Or.inl ⟨p, List.mem_cons_self _ _, by rw [hfp]; exact hw⟩
    | none =>
      simp only [hfp] at h
      rcases ih o₀ h with ⟨q, hq, hfq⟩ | ⟨ho, hall⟩
      · exact Or.inl ⟨q, List.mem_cons_of_mem _ hq, hfq⟩
      · refine Or.inr ⟨ho, fun q hq => ?_⟩
        rcases List.mem_cons.mp hq with rfl | hq'
        · exact hfp
        · exact hall q hq'

theorem foldl_match_some_of_mem (f : String → Option String) (v : String)
    (huniq : ∀ p q w w', f p = some w → f q = some w' → w = w') :
    ∀ (ps : List String) (o₀ : Option String) (p : String), p ∈ ps → f p = some v →
      ps.foldl (fun o p => match f p with | some w => some w | none => o) o₀ = some v := by
  intro ps
  induction ps with
  | nil =>
    intro o₀ p hp
    simp at hp
  | cons q rest ih =>
    intro o₀ p hp hfp
    simp only [List.foldl_cons]
    by_cases hrest : ∃ r ∈ rest, f r = some v
    · obtain ⟨r, hr, hfr⟩ := hrest
      exact ih _ r hr hfr
    · have hpq : p = q := by
        rcases List.mem_cons.mp hp with rfl | hp'
        · rfl
        · exact absurd ⟨p, hp', hfp⟩ hrest
      subst hpq
      have hall : ∀ r ∈ rest, f r = none := by
        intro r hr
        cases hfr : f r with
        | none => rfl
        | some w =>
          have hvw := huniq p r v w hfp hfr
          exact absurd ⟨r, hr, by rw [hfr, ← hvw]⟩ hrest
      rw [foldl_match_init f rest _ hall]
      simp [hfp]

/-- C3: in `get_params(paths, max_depth)`, a key is bound to a value exactly
when some requested path's subtree handler returned that pair and — for
`max_depth = d > 0` — the key contains at most `dotCount p + d` periods,
`p` the requested path it came from; with `max_depth = 0` all returned pairs
are included unchanged.  Hence the GET response never holds a key with more
than `n + d` dots for every contributing path with `n` dots. -/
theorem c3_get_depth_filter (env : Env) (paths : List String) (d : Nat) (k v : String) :
    plookup k (get_params env paths d) = some v ↔
      ∃ p ∈ paths, (k, v) ∈ dispatch_get env p ∧ (d = 0 ∨ dotCount k ≤ dotCount p + d) := by
  have hmem_filt : ∀ p w, (k, w) ∈ depthFilt env p d ↔
      ((k, w) ∈ dispatch_get env p ∧ (d = 0 ∨ dotCount k ≤ dotCount p + d)) := by
    intro p w
    unfold depthFilt
    by_cases hd : d = 0
    · simp [hd]
    · rw [if_neg hd, List.mem_filter]
      simp [hd]
  have huniq : ∀ p q w w', plookup k (depthFilt env p d) = some w →
      plookup k (depthFilt env q d) = some w' → w = w' := by
    intro p q w w' hw hw'
    exact dispatch_get_functional env p q k w w'
      ((hmem_filt p w).mp (plookup_mem hw)).1
      ((hmem_filt q w').mp (plookup_mem hw')).1
  have hdist : ∀ p, distinctKeys (depthFilt env p d) := by
    intro p
    unfold depthFilt
    by_cases hd : d = 0
    · simpa [hd] using dispatch_get_distinct env p
    · rw [if_neg hd]
      exact distinctKeys_sublist (List.filter_sublist _) (dispatch_get_distinct env p)
  rw [get_params_lookup env d k paths]
  constructor
  · intro h
    rcases foldl_match_some_cases _ v paths none h with ⟨p, hp, hf⟩ | ⟨hcon, -⟩
    · exact ⟨p, hp, (hmem_filt p v).mp (plookup_mem hf)⟩
    · exact absurd hcon (by simp)
  · rintro ⟨p, hp, hm, hdot⟩
    exact foldl_match_some_of_mem _ v huniq paths none p hp
      (mem_plookup (hdist p) ((hmem_filt p v).mpr ⟨hm, hdot⟩))
